import Mathlib

/-! Knuckleball: the command dispatcher `Context` (src/context.cpp)

A shallow embedding of `Context` and of the `std::map` / `std::set` / `std::string`
operations it relies on, followed by theorems about the embedded functions.

Conventions of the embedding.

* A `std::string` is a Lean `String`; one Lean character stands for one byte, and
  `std::string::operator<` (bytewise lexicographic) is the lexicographic order of the
  character lists (`str_less`, which agrees with `<` on `String`).
* `_instances`, a `std::map<std::string, std::shared_ptr<Instance>>`, is the list of its
  entries in iteration order, that is in strictly ascending key order (`Registry.WF`).
* A C++ function that may throw returns an `Outcome`: the reply and the state after the
  call, or the exception and the state at the moment of the throw, or `undefined` when
  the C++ standard gives the execution no meaning.
* `int` is a 32-bit two's complement integer (`to_int`).
* The collaborators whose sources are not part of context.cpp (Parser, Grammar, the
  Instance classes) are fields of `Collaborators`; the functions of context.cpp take
  them as a parameter.
* The log line written at the end of `execute` carries a wall-clock timestamp and is
  not part of the embedding.
-/

namespace Knuckleball

/-! ## Exceptions -/

/-- Modelled from the spec: exceptions.h is missing; the error kinds of §7 are string
sentinels whose text is the name of the kind. -/
def EXC_MALFORMED_INPUT : String := "EXC_MALFORMED_INPUT"

/-- Modelled from the spec: exceptions.h is missing; see `EXC_MALFORMED_INPUT`. -/
def EXC_INVALID_MESSAGE : String := "EXC_INVALID_MESSAGE"

/-- Modelled from the spec: exceptions.h is missing; see `EXC_MALFORMED_INPUT`. -/
def EXC_WRONG_NUMBER_OF_ARGUMENTS : String := "EXC_WRONG_NUMBER_OF_ARGUMENTS"

/-- Modelled from the spec: exceptions.h is missing; see `EXC_MALFORMED_INPUT`. -/
def EXC_INVALID_ARGUMENT : String := "EXC_INVALID_ARGUMENT"

/-- Modelled from the spec: exceptions.h is missing; see `EXC_MALFORMED_INPUT`. -/
def EXC_VARIABLE_NAME_ALREADY_USED : String := "EXC_VARIABLE_NAME_ALREADY_USED"

/-- Modelled from the spec: exceptions.h is missing; see `EXC_MALFORMED_INPUT`. -/
def EXC_UNEXISTENT_VARIABLE : String := "EXC_UNEXISTENT_VARIABLE"

/-- Modelled from the spec: exceptions.h is missing; see `EXC_MALFORMED_INPUT`. -/
def EXC_UNKNOWN_ERROR : String := "EXC_UNKNOWN_ERROR"

/-- The object of a C++ `throw`: a string sentinel (`const char*`), or anything else
(for instance the `std::out_of_range` of `std::string::substr`). -/
inductive Exc where
  | sentinel (text : String)
  | other
  deriving DecidableEq, Repr

/-- How a call that works on a state of type `σ` ends. -/
inductive Outcome (σ : Type) where
  | returned (reply : String) (st : σ)
  | thrown (e : Exc) (st : σ)
  | undefined
  deriving DecidableEq, Repr

/-! ## Strings -/

/-- The order `operator<` of `std::string`: lexicographic on the characters. -/
def str_less (a b : String) : Bool := decide (a.toList < b.toList)

/-- Modelled from the spec: str_utils.cpp is missing; `starts_with(str, p)` tells
whether `str` begins with `p`. -/
def starts_with (str p : String) : Bool := p.toList.isPrefixOf str.toList

/-- Modelled from the spec: str_utils.cpp is missing; `remove_spaces` deletes the
spaces of its argument. -/
def remove_spaces (str : String) : String := ⟨str.toList.filter (fun c => c != ' ')⟩

/-- The value `std::string::npos`, the largest `size_t`. -/
def npos : Nat := 2 ^ 64 - 1

/-- Conversion of an `int` to `size_t`, as happens to the length argument of `substr`. -/
def to_size_t (n : Int) : Nat := (n % 2 ^ 64).toNat

/-- The call `s.substr(pos, len)`: `std::out_of_range` when `pos > s.size()`, otherwise
the `min(len, s.size() - pos)` characters from `pos` on. -/
def substr (s : String) (pos : Nat) (len : Nat) : Except Exc String :=
  if s.length < pos then .error .other
  else .ok ⟨(s.toList.drop pos).take (min len (s.length - pos))⟩

/-- Conversion of a 64-bit integer to `int` (32 bits, two's complement). -/
def to_int (v : Int) : Int := (v + 2 ^ 31) % 2 ^ 32 - 2 ^ 31

/-! ## The registry: `std::map<std::string, std::shared_ptr<Instance>>` -/

namespace Registry

variable {I : Type}

/-- The keys in iteration order. -/
def keys (m : List (String × I)) : List String := m.map Prod.fst

/-- The representation invariant of a `std::map`: keys strictly ascending. -/
def WF (m : List (String × I)) : Prop := (keys m).Pairwise (fun a b => str_less a b = true)

/-- The call `m.find(k)`; `none` stands for `m.end()`. -/
def find (m : List (String × I)) (k : String) : Option I :=
  match m with
  | [] => none
  | (k', v) :: t => if k' = k then some v else find t k

/-- The assignment `m[k] = v`. -/
def insert (k : String) (v : I) : List (String × I) → List (String × I)
  | [] => [(k, v)]
  | (k', v') :: t =>
    if str_less k k' then (k, v) :: (k', v') :: t
    else if k = k' then (k, v) :: t
    else (k', v') :: insert k v t

/-- The call `m.erase(it)` for the iterator `it` that points at key `k`. -/
def erase (k : String) : List (String × I) → List (String × I)
  | [] => []
  | (k', v') :: t => if k' = k then t else (k', v') :: erase k t

end Registry

/-- The call `s.insert(x)` on a `std::set<std::string>` given in iteration order. -/
def set_insert (x : String) : List String → List String
  | [] => [x]
  | y :: ys =>
    if str_less x y then x :: y :: ys
    else if x = y then y :: ys
    else y :: set_insert x ys

/-! ## Collaborators and state -/

/-- What `Parser parser(input)` offers: `actor()`, `message_name()`, `arguments()`. -/
structure Parser where
  actor : String
  message_name : String
  arguments : List String
  deriving DecidableEq, Repr

/-- The classes used by context.cpp whose sources are elsewhere. `I` is the type of
the instances (`Instance`), `F` the type of `float` values.

* `parse` is the constructor `Parser(input)`;
* `is_type` … `is_namespace` are the predicates of `Grammar`;
* `BooleanInstance` … `DictionaryInstance` are the constructors called in
  `execute_in_type`, `name` is `Instance::name()`;
* `receive` is `Instance::receive`; it works on the instance and may read the two
  tunables of the current context;
* `integer_value s` is `IntegerInstance(s).value()`, `integer_representation n` is
  `IntegerInstance(n).representation()`, and likewise for `FloatInstance`, whose
  rendering reads the float precision; `float_negative t` is `t < 0`. -/
structure Collaborators (I F : Type) where
  parse : String → Except Exc Parser
  is_type : String → Bool
  is_context : String → Bool
  is_variable : String → Bool
  is_connection : String → Bool
  is_namespace : String → Bool
  BooleanInstance : String → List String → Except Exc I
  CharacterInstance : String → List String → Except Exc I
  IntegerInstance : String → List String → Except Exc I
  FloatInstance : String → List String → Except Exc I
  StringInstance : String → List String → Except Exc I
  VectorInstance : String → String → List String → Except Exc I
  SetInstance : String → String → List String → Except Exc I
  DictionaryInstance : String → String → String → List String → Except Exc I
  name : I → String
  receive : Int → F → I → String → List String → Outcome I
  integer_value : String → Except Exc Int
  integer_representation : Int → String
  float_value : String → Except Exc F
  float_representation : Int → F → String
  float_negative : F → Bool

/-- The data members of `Context` that the dispatcher reads and writes. -/
structure Context (I F : Type) where
  _instances : List (String × I)
  _float_precision : Int
  _float_comparison_tolerance : F
  deriving DecidableEq, Repr

variable {I F : Type}

/-! ## `Context::execute_in_type` -/

/-- The loop of lines 100-104: every comma of `types_of_dictionary` constructs a
`DictionaryInstance` and assigns it to `instance`. -/
def dictionary_loop (env : Collaborators I F) (types_of_dictionary message_name : String)
    (arguments : List String) : List Nat → Option I → Except Exc (Option I)
  | [], inst => .ok inst
  | i :: rest, inst =>
    if types_of_dictionary.toList[i]? = some ',' then
      match substr types_of_dictionary 0 i with
      | .error e => .error e
      | .ok key_type =>
        match substr types_of_dictionary (i + 1) npos with
        | .error e => .error e
        | .ok value_type =>
          match env.DictionaryInstance key_type value_type message_name arguments with
          | .error e => .error e
          | .ok d => dictionary_loop env types_of_dictionary message_name arguments rest (some d)
    else dictionary_loop env types_of_dictionary message_name arguments rest inst

/-- Lines 79-105: the value of the pointer `instance` before line 106; `none` is the
pointer that was never assigned. -/
def construct (env : Collaborators I F) (type message_name : String)
    (arguments : List String) : Except Exc (Option I) :=
  if type = "Boolean" then (env.BooleanInstance message_name arguments).map some
  else if type = "Character" then (env.CharacterInstance message_name arguments).map some
  else if type = "Integer" then (env.IntegerInstance message_name arguments).map some
  else if type = "Float" then (env.FloatInstance message_name arguments).map some
  else if type = "String" then (env.StringInstance message_name arguments).map some
  else if starts_with type "Vector" then
    match substr type 7 (to_size_t ((type.length : Int) - 8)) with
    | .error e => .error e
    | .ok element_type => (env.VectorInstance element_type message_name arguments).map some
  else if starts_with type "Set" then
    match substr type 4 (to_size_t ((type.length : Int) - 5)) with
    | .error e => .error e
    | .ok element_type => (env.SetInstance element_type message_name arguments).map some
  else if starts_with type "Dictionary" then
    match substr type 11 (to_size_t ((type.length : Int) - 12)) with
    | .error e => .error e
    | .ok types_of_dictionary =>
      dictionary_loop env types_of_dictionary message_name arguments
        (List.range types_of_dictionary.length) none
  else .ok none

/-- The function `Context::execute_in_type`. -/
def execute_in_type (env : Collaborators I F) (st : Context I F) (parser : Parser) :
    Outcome (Context I F) :=
  let type := remove_spaces parser.actor
  let message_name := parser.message_name
  match construct env type message_name parser.arguments with
  | .error e => .thrown e st
  | .ok none => .undefined
  | .ok (some inst) =>
    match Registry.find st._instances (env.name inst) with
    | none =>
      .returned "null"
        { st with _instances := Registry.insert (env.name inst) inst st._instances }
    | some _ =>
      if starts_with message_name "createIfNotExists:" then .returned "null" st
      else .thrown (.sentinel EXC_VARIABLE_NAME_ALREADY_USED) st

/-! ## The context operations -/

/-- The inner loop of `op_listNamespaces` for one key: every index `i` with
`0 ≤ i < size - 1` at which `::` starts inserts `substr(0, i)`. -/
def namespaces_of_key (key : String) (namespaces : List String) : List String :=
  (List.range (key.length - 1)).foldl
    (fun ns i =>
      if key.toList[i]? = some ':' ∧ key.toList[i + 1]? = some ':'
      then set_insert ⟨key.toList.take i⟩ ns else ns)
    namespaces

/-- The loop that joins the elements of a container into `elements_str`, with a comma
before every element but the one at `begin()`. -/
def join_loop : Bool → String → List String → String
  | _, elements_str, [] => elements_str
  | at_begin, elements_str, x :: rest =>
    join_loop false ((if at_begin then elements_str else elements_str ++ ",") ++ x) rest

/-- The function `Context::op_listNamespaces`. -/
def op_listNamespaces (st : Context I F) (arguments : List String) : Outcome (Context I F) :=
  if arguments.length ≠ 0 then .thrown (.sentinel EXC_WRONG_NUMBER_OF_ARGUMENTS) st
  else
    let namespaces :=
      (Registry.keys st._instances).foldl (fun ns key => namespaces_of_key key ns) []
    .returned ("[" ++ join_loop true "" namespaces ++ "]") st

/-- The function `Context::op_listVariables`. -/
def op_listVariables (st : Context I F) (arguments : List String) : Outcome (Context I F) :=
  if arguments.length ≠ 0 then .thrown (.sentinel EXC_WRONG_NUMBER_OF_ARGUMENTS) st
  else .returned ("[" ++ join_loop true "" (Registry.keys st._instances) ++ "]") st

/-- The loop of `op_listVariablesOfNamespace`: keys that do not start with `p` are
skipped, and a comma is added when `elements_str` is not empty. -/
def namespace_loop (p : String) : String → List String → String
  | elements_str, [] => elements_str
  | elements_str, key :: rest =>
    if !starts_with key p then namespace_loop p elements_str rest
    else
      namespace_loop p
        ((if elements_str.length > 0 then elements_str ++ "," else elements_str) ++ key) rest

/-- The function `Context::op_listVariablesOfNamespace`; the pattern `[a]` is the test
`arguments.size() != 1` together with the access `arguments[0]`. -/
def op_listVariablesOfNamespace (env : Collaborators I F) (st : Context I F)
    (arguments : List String) : Outcome (Context I F) :=
  match arguments with
  | [a] =>
    if !env.is_namespace a then .thrown (.sentinel EXC_INVALID_ARGUMENT) st
    else .returned ("[" ++ namespace_loop (a ++ "::") "" (Registry.keys st._instances) ++ "]") st
  | _ => .thrown (.sentinel EXC_WRONG_NUMBER_OF_ARGUMENTS) st

/-- The loop of `op_deleteVariable`: the first entry whose key equals `k` is erased;
`none` when the loop ends without finding one. -/
def delete_loop (k : String) : List (String × I) → Option (List (String × I))
  | [] => none
  | (k', v) :: t => if k' = k then some t else (delete_loop k t).map (fun t' => (k', v) :: t')

/-- The function `Context::op_deleteVariable`. -/
def op_deleteVariable (env : Collaborators I F) (st : Context I F)
    (arguments : List String) : Outcome (Context I F) :=
  match arguments with
  | [a] =>
    if !env.is_variable a then .thrown (.sentinel EXC_INVALID_ARGUMENT) st
    else
      match delete_loop a st._instances with
      | some m => .returned "null" { st with _instances := m }
      | none => .thrown (.sentinel EXC_UNEXISTENT_VARIABLE) st
  | _ => .thrown (.sentinel EXC_WRONG_NUMBER_OF_ARGUMENTS) st

/-- The first loop of `op_deleteVariablesOfNamespace`: the iterators (given by their
keys) of the entries whose key starts with `p`. -/
def instances_to_be_deleted (p : String) (m : List (String × I)) : List String :=
  (Registry.keys m).filter (fun key => starts_with key p)

/-- The function `Context::op_deleteVariablesOfNamespace`. -/
def op_deleteVariablesOfNamespace (env : Collaborators I F) (st : Context I F)
    (arguments : List String) : Outcome (Context I F) :=
  match arguments with
  | [a] =>
    if !env.is_namespace a then .thrown (.sentinel EXC_INVALID_ARGUMENT) st
    else
      .returned "null"
        { st with
          _instances :=
            (instances_to_be_deleted (a ++ "::") st._instances).foldl
              (fun m key => Registry.erase key m) st._instances }
  | _ => .thrown (.sentinel EXC_WRONG_NUMBER_OF_ARGUMENTS) st

/-- The function `Context::op_getFloatPrecision`; it does not look at `arguments`. -/
def op_getFloatPrecision (env : Collaborators I F) (st : Context I F)
    (_arguments : List String) : Outcome (Context I F) :=
  .returned (env.integer_representation st._float_precision) st

/-- The function `Context::op_setFloatPrecision`; `IntegerInstance::value()` is a
64-bit integer that initialises the `int float_precision`. -/
def op_setFloatPrecision (env : Collaborators I F) (st : Context I F)
    (arguments : List String) : Outcome (Context I F) :=
  match arguments with
  | [a] =>
    match env.integer_value a with
    | .error e => .thrown e st
    | .ok v =>
      let float_precision := to_int v
      if float_precision ≤ 0 then .thrown (.sentinel EXC_INVALID_ARGUMENT) st
      else .returned "null" { st with _float_precision := float_precision }
  | _ => .thrown (.sentinel EXC_WRONG_NUMBER_OF_ARGUMENTS) st

/-- The function `Context::op_getFloatComparisonTolerance`; it does not look at
`arguments`. -/
def op_getFloatComparisonTolerance (env : Collaborators I F) (st : Context I F)
    (_arguments : List String) : Outcome (Context I F) :=
  .returned (env.float_representation st._float_precision st._float_comparison_tolerance) st

/-- The function `Context::op_setFloatComparisonTolerance`. -/
def op_setFloatComparisonTolerance (env : Collaborators I F) (st : Context I F)
    (arguments : List String) : Outcome (Context I F) :=
  match arguments with
  | [a] =>
    match env.float_value a with
    | .error e => .thrown e st
    | .ok t =>
      if env.float_negative t then .thrown (.sentinel EXC_INVALID_ARGUMENT) st
      else .returned "null" { st with _float_comparison_tolerance := t }
  | _ => .thrown (.sentinel EXC_WRONG_NUMBER_OF_ARGUMENTS) st

/-- The function `Context::execute_in_context`. -/
def execute_in_context (env : Collaborators I F) (st : Context I F) (parser : Parser) :
    Outcome (Context I F) :=
  let message_name := parser.message_name
  if message_name = "listNamespaces" then op_listNamespaces st parser.arguments
  else if message_name = "listVariables" then op_listVariables st parser.arguments
  else if message_name = "listVariablesOfNamespace:" then
    op_listVariablesOfNamespace env st parser.arguments
  else if message_name = "deleteVariable:" then op_deleteVariable env st parser.arguments
  else if message_name = "deleteVariablesOfNamespace:" then
    op_deleteVariablesOfNamespace env st parser.arguments
  else if message_name = "getFloatPrecision" then op_getFloatPrecision env st parser.arguments
  else if message_name = "setFloatPrecision:" then op_setFloatPrecision env st parser.arguments
  else if message_name = "getFloatComparisonTolerance" then
    op_getFloatComparisonTolerance env st parser.arguments
  else if message_name = "setFloatComparisonTolerance:" then
    op_setFloatComparisonTolerance env st parser.arguments
  else .thrown (.sentinel EXC_INVALID_MESSAGE) st

/-! ## `Context::execute_in_variable` and `Context::execute` -/

/-- The effect on the map of a call through `it->second`: the entry at key `k` holds
the instance as `receive` left it. -/
def assign (k : String) (v : I) : List (String × I) → List (String × I)
  | [] => []
  | (k', v') :: t => if k' = k then (k', v) :: t else (k', v') :: assign k v t

/-- The function `Context::execute_in_variable`. -/
def execute_in_variable (env : Collaborators I F) (st : Context I F) (parser : Parser) :
    Outcome (Context I F) :=
  match Registry.find st._instances parser.actor with
  | none => .thrown (.sentinel EXC_UNEXISTENT_VARIABLE) st
  | some inst =>
    match env.receive st._float_precision st._float_comparison_tolerance inst
        parser.message_name parser.arguments with
    | .returned reply inst' =>
      .returned reply { st with _instances := assign parser.actor inst' st._instances }
    | .thrown e inst' =>
      .thrown e { st with _instances := assign parser.actor inst' st._instances }
    | .undefined => .undefined

/-- The body of the `try` block of `Context::execute` once the parser is built;
`session` is `session->receive`. When no branch is taken `output` keeps its initial
value, the empty string. -/
def dispatch (env : Collaborators I F) (st : Context I F) (parser : Parser)
    (session : String → List String → Except Exc String) : Outcome (Context I F) :=
  let actor := parser.actor
  if env.is_type actor then execute_in_type env st parser
  else if env.is_context actor then execute_in_context env st parser
  else if env.is_variable actor then execute_in_variable env st parser
  else if env.is_connection actor then
    match session parser.message_name parser.arguments with
    | .ok reply => .returned reply st
    | .error e => .thrown e st
  else .returned "" st

/-- The function `Context::execute`: the reply and the state after the call; `none`
when the execution is undefined. -/
def execute (env : Collaborators I F) (st : Context I F) (input : String)
    (session : String → List String → Except Exc String) : Option (String × Context I F) :=
  let tried : Outcome (Context I F) :=
    match env.parse input with
    | .error e => .thrown e st
    | .ok parser => dispatch env st parser session
  match tried with
  | .returned output st' => some (output, st')
  | .thrown (.sentinel exception) st' => some (exception, st')
  | .thrown .other st' => some (EXC_UNKNOWN_ERROR, st')
  | .undefined => none

/-! ## Stand-ins for the collaborators

The theorems below hold for every value of `Collaborators`. To evaluate the dispatcher
on concrete lines, this section gives one such value, written from the specification. -/

namespace Grammar

/-- Modelled from the spec: grammar.cpp is missing; an identifier matches
`[A-Za-z_][A-Za-z0-9_]*` (§3). -/
def is_identifier : List Char → Bool
  | [] => false
  | c :: cs => (c.isAlpha || c == '_') && cs.all (fun d => d.isAlphanum || d == '_')

/-- Modelled from the spec: grammar.cpp is missing; the text before and after the
first `::`, if there is one. -/
def split_scope : List Char → Option (List Char × List Char)
  | [] => none
  | c :: rest =>
    if c = ':' ∧ rest.head? = some ':' then some ([], rest.tail)
    else (split_scope rest).map (fun p => (c :: p.1, p.2))

/-- Modelled from the spec: grammar.cpp is missing; the five scalar type names (§3). -/
def scalar_types : List String := ["Boolean", "Character", "Integer", "Float", "String"]

/-- Modelled from the spec: grammar.cpp is missing; `isType` (§4.1): a scalar type
name, or `Vector<T>`, `Set<T>`, `Dictionary<K,V>` over scalar type names, without
whitespace. -/
def is_type (s : String) : Bool :=
  scalar_types.contains s
    || scalar_types.any (fun a => s == "Vector<" ++ a ++ ">" || s == "Set<" ++ a ++ ">")
    || scalar_types.any (fun k =>
        scalar_types.any (fun v => s == "Dictionary<" ++ k ++ "," ++ v ++ ">"))

/-- Modelled from the spec: grammar.cpp is missing; `isContext` (§4.1). -/
def is_context (s : String) : Bool := s == "Context"

/-- Modelled from the spec: grammar.cpp is missing; `isConnection` (§4.1). -/
def is_connection (s : String) : Bool := s == "Connection"

/-- Modelled from the spec: grammar.cpp is missing; `isNamespace` (§4.1): a bare
identifier. -/
def is_namespace (s : String) : Bool := is_identifier s.toList

/-- Modelled from the spec: grammar.cpp is missing; `isVariable` (§4.1):
`identifier("::" identifier)?`, the reserved words `Context` and `Connection` apart. -/
def is_variable (s : String) : Bool :=
  s != "Context" && s != "Connection" &&
    (is_identifier s.toList ||
      match split_scope s.toList with
      | some (a, b) => is_identifier a && is_identifier b
      | none => false)

end Grammar

/-- Modelled from the spec: the Instance classes are missing; a stand-in that keeps
the name, the type and the arguments of the initializer message. -/
structure SampleInstance where
  name : String
  type : String
  state : List String
  deriving DecidableEq, Repr

/-- Modelled from the spec: the Instance classes are missing; a constructor "taking
`(messageName, arguments)`" whose first argument, a valid variable name, is the name of
the instance (§4.3, §4.4). -/
def sample_constructor (type message_name : String) (arguments : List String) :
    Except Exc SampleInstance :=
  match arguments with
  | [] => .error (.sentinel EXC_WRONG_NUMBER_OF_ARGUMENTS)
  | n :: rest =>
    if !(starts_with message_name "create:" || starts_with message_name "createIfNotExists:")
    then .error (.sentinel EXC_INVALID_MESSAGE)
    else if !Grammar.is_variable n then .error (.sentinel EXC_INVALID_ARGUMENT)
    else .ok ⟨n, type, rest⟩

/-- Modelled from the spec: the Instance classes are missing; a `receive` with the two
messages `getValue` and `setValue:`. -/
def sample_receive (_precision : Int) (_tolerance : String) (inst : SampleInstance)
    (message_name : String) (arguments : List String) : Outcome SampleInstance :=
  if message_name = "getValue" then
    match arguments with
    | [] => .returned (inst.state.headD "null") inst
    | _ => .thrown (.sentinel EXC_WRONG_NUMBER_OF_ARGUMENTS) inst
  else if message_name = "setValue:" then
    match arguments with
    | [v] => .returned "null" { inst with state := [v] }
    | _ => .thrown (.sentinel EXC_WRONG_NUMBER_OF_ARGUMENTS) inst
  else .thrown (.sentinel EXC_INVALID_MESSAGE) inst

/-- The value of a string of decimal digits; `none` when it is empty or has another
character. -/
def digits_value (ds : List Char) : Option Nat :=
  if ds.isEmpty || !ds.all Char.isDigit then none
  else some (ds.foldl (fun n d => 10 * n + (d.toNat - 48)) 0)

/-- Modelled from the spec: the Instance classes are missing; the value of an integer
literal, "decimal, signed 64-bit" (§4.3). -/
def sample_integer_value (s : String) : Except Exc Int :=
  let v : Option Int :=
    match s.toList with
    | '-' :: ds => (digits_value ds).map (fun n => - (n : Int))
    | ds => (digits_value ds).map (fun n => (n : Int))
  match v with
  | some n =>
    if - 2 ^ 63 ≤ n ∧ n < 2 ^ 63 then .ok n else .error (.sentinel EXC_INVALID_ARGUMENT)
  | none => .error (.sentinel EXC_INVALID_ARGUMENT)

/-- The decimal digits of a natural number, by repeated division; `fuel` bounds the
number of digits. -/
def decimal_digits : Nat → Nat → List Char → List Char
  | 0, _, acc => acc
  | fuel + 1, n, acc =>
    let acc' := Char.ofNat (48 + n % 10) :: acc
    if n / 10 = 0 then acc' else decimal_digits fuel (n / 10) acc'

/-- Modelled from the spec: the Instance classes are missing; the rendering of an
integer, "decimal, signed 64-bit" (§4.3). -/
def sample_integer_representation (n : Int) : String :=
  if n < 0 then ⟨'-' :: decimal_digits 20 n.natAbs []⟩ else ⟨decimal_digits 20 n.natAbs []⟩

namespace SampleParser

/-- Dropping the leading blanks. -/
def trim_left : List Char → List Char
  | [] => []
  | c :: cs => if c = ' ' then trim_left cs else c :: cs

/-- Dropping the blanks at both ends. -/
def trim (cs : List Char) : List Char := (trim_left (trim_left cs).reverse).reverse

/-- The actor and what follows it: the actor ends at the first blank outside angle
brackets that is not followed by an opening angle bracket. -/
def take_actor : List Char → Nat → List Char × List Char
  | [], _ => ([], [])
  | c :: rest, depth =>
    if c = ' ' ∧ depth = 0 ∧ (trim_left rest).head? ≠ some '<' then ([], rest)
    else
      let p := take_actor rest (if c = '<' then depth + 1 else if c = '>' then depth - 1 else depth)
      (c :: p.1, p.2)

/-- Splitting at the commas that are outside quotes (codes 34 and 39, with the escape
character of code 92) and outside brackets and braces. -/
def split_commas : List Char → Nat → Option Char → Bool → List Char → List (List Char)
  | [], _, _, _, cur => [cur.reverse]
  | c :: rest, depth, quote, escaped, cur =>
    match quote with
    | some q =>
      if escaped then split_commas rest depth quote false (c :: cur)
      else if c = Char.ofNat 92 then split_commas rest depth quote true (c :: cur)
      else if c = q then split_commas rest depth none false (c :: cur)
      else split_commas rest depth quote false (c :: cur)
    | none =>
      if c = Char.ofNat 34 ∨ c = Char.ofNat 39 then split_commas rest depth (some c) false (c :: cur)
      else if c = '[' ∨ c = Char.ofNat 123 then split_commas rest (depth + 1) none false (c :: cur)
      else if c = ']' ∨ c = Char.ofNat 125 then split_commas rest (depth - 1) none false (c :: cur)
      else if c = ',' ∧ depth = 0 then cur.reverse :: split_commas rest 0 none false []
      else split_commas rest depth none false (c :: cur)

/-- One piece `keyword: argument`: the keyword with its colon, and the argument. -/
def keyword_and_argument : List Char → List Char → Option (List Char × List Char)
  | [], _ => none
  | c :: rest, kw =>
    if c = ':' then some ((c :: kw).reverse, trim rest)
    else keyword_and_argument rest (c :: kw)

/-- Modelled from the spec: parser.cpp is missing; a line is `actor selector` or
`actor keyword: argument, keyword: argument, …` as in the scenarios of §8, the
selector being the keywords with their colons and the actor having its interior spaces
removed; anything else is `EXC_MALFORMED_INPUT` (§4.2). -/
def parse (input : String) : Except Exc Parser :=
  let p := take_actor (trim input.toList) 0
  let actor := p.1.filter (fun c => c != ' ')
  let rest := trim p.2
  if actor.isEmpty || rest.isEmpty then .error (.sentinel EXC_MALFORMED_INPUT)
  else if !rest.contains ':' then
    if Grammar.is_identifier rest then .ok ⟨⟨actor⟩, ⟨rest⟩, []⟩
    else .error (.sentinel EXC_MALFORMED_INPUT)
  else
    let pieces := (split_commas rest 0 none false []).map (fun piece => keyword_and_argument (trim piece) [])
    if pieces.all (fun piece =>
        match piece with
        | some (kw, arg) => Grammar.is_identifier kw.dropLast && !arg.isEmpty
        | none => false)
    then
      .ok ⟨⟨actor⟩,
        ⟨(pieces.map (fun piece => match piece with | some (kw, _) => kw | none => [])).flatten⟩,
        pieces.map (fun piece => match piece with | some (_, arg) => ⟨arg⟩ | none => "")⟩
    else .error (.sentinel EXC_MALFORMED_INPUT)

end SampleParser

/-- The stand-in collaborators: instances are `SampleInstance`, and a `float` is
carried as the text of its literal. -/
def sample_env : Collaborators SampleInstance String where
  parse := SampleParser.parse
  is_type := Grammar.is_type
  is_context := Grammar.is_context
  is_variable := Grammar.is_variable
  is_connection := Grammar.is_connection
  is_namespace := Grammar.is_namespace
  BooleanInstance := sample_constructor "Boolean"
  CharacterInstance := sample_constructor "Character"
  IntegerInstance := sample_constructor "Integer"
  FloatInstance := sample_constructor "Float"
  StringInstance := sample_constructor "String"
  VectorInstance := fun t => sample_constructor ("Vector<" ++ t ++ ">")
  SetInstance := fun t => sample_constructor ("Set<" ++ t ++ ">")
  DictionaryInstance := fun k v => sample_constructor ("Dictionary<" ++ k ++ "," ++ v ++ ">")
  name := SampleInstance.name
  receive := sample_receive
  integer_value := sample_integer_value
  integer_representation := sample_integer_representation
  float_value := fun s => .ok s
  float_representation := fun _ t => t
  float_negative := fun t => starts_with t "-"

/-- The state of a freshly constructed `Context` with the default tunables of §3. -/
def sample_initial : Context SampleInstance String := ⟨[], 6, "0.000001"⟩

/-- A state with the single variable `x`, as left by `Integer create: x, withValue: 0`. -/
def sample_with_x : Context SampleInstance String :=
  ⟨[("x", ⟨"x", "Integer", ["0"]⟩)], 6, "0.000001"⟩

/-- A state with two variables in the namespace `ns` and the variable `x`. -/
def sample_namespaced : Context SampleInstance String :=
  ⟨[("ns::a", ⟨"ns::a", "Integer", ["1"]⟩), ("ns::b", ⟨"ns::b", "Integer", ["2"]⟩),
    ("x", ⟨"x", "Integer", ["0"]⟩)], 6, "0.000001"⟩

/-- A session whose `receive` answers every message with `null`. -/
def sample_session (_message_name : String) (_arguments : List String) : Except Exc String :=
  .ok "null"

/-- The state after `n` successive calls of `execute_in_type` with one and the same
message, each of which returns; `none` when one of them does not return. -/
def repeat_execute_in_type (env : Collaborators I F) (parser : Parser) :
    Nat → Context I F → Option (Context I F)
  | 0, st => some st
  | n + 1, st =>
    match execute_in_type env st parser with
    | .returned _ st' => repeat_execute_in_type env parser n st'
    | _ => none

/-- The `std::set` called `namespaces` that `op_listNamespaces` fills before it joins
its elements. -/
def listed_namespaces (m : List (String × I)) : List String :=
  (Registry.keys m).foldl (fun ns key => namespaces_of_key key ns) []

/-- The keys that the loop of `op_listVariablesOfNamespace` does not skip for the
namespace `ns`. -/
def listed_variables (ns : String) (m : List (String × I)) : List String :=
  (Registry.keys m).filter (fun key => starts_with key (ns ++ "::"))

/-- The value of `output` after the two `catch` clauses of `Context::execute`. -/
def caught (e : Exc) : String :=
  match e with
  | .sentinel exception => exception
  | .other => EXC_UNKNOWN_ERROR

/-- The state after the calls `execute(input, session)` for the lines of `inputs`, one
after the other; `none` when one of the calls is undefined. -/
def execute_all (env : Collaborators I F) (session : String → List String → Except Exc String) :
    List String → Context I F → Option (Context I F)
  | [], st => some st
  | input :: rest, st =>
    match execute env st input session with
    | some (_, st') => execute_all env session rest st'
    | none => none

/-- Modelled from the spec: the Instance constructors are missing; §4.4 says that the
name of a constructed instance "is the first argument (which must be a valid variable
name or a variable in a namespace)", so whenever a constructor returns, the name of the
instance satisfies `is_variable`. -/
def constructors_name_variables (env : Collaborators I F) : Prop :=
  (∀ m a i, env.BooleanInstance m a = .ok i → env.is_variable (env.name i) = true)
    ∧ (∀ m a i, env.CharacterInstance m a = .ok i → env.is_variable (env.name i) = true)
    ∧ (∀ m a i, env.IntegerInstance m a = .ok i → env.is_variable (env.name i) = true)
    ∧ (∀ m a i, env.FloatInstance m a = .ok i → env.is_variable (env.name i) = true)
    ∧ (∀ m a i, env.StringInstance m a = .ok i → env.is_variable (env.name i) = true)
    ∧ (∀ t m a i, env.VectorInstance t m a = .ok i → env.is_variable (env.name i) = true)
    ∧ (∀ t m a i, env.SetInstance t m a = .ok i → env.is_variable (env.name i) = true)
    ∧ (∀ k v m a i, env.DictionaryInstance k v m a = .ok i →
        env.is_variable (env.name i) = true)

/-- Modelled from the spec: the Instance classes are missing; an `IntegerInstance`
constructor that, beyond the name, validates the shape of its value argument (§4.3:
"each operation validates argument arity and per-argument shape"). -/
def checked_integer_constructor (message_name : String) (arguments : List String) :
    Except Exc SampleInstance :=
  match sample_constructor "Integer" message_name arguments with
  | .error e => .error e
  | .ok inst =>
    match inst.state with
    | [v] =>
      match sample_integer_value v with
      | .error e => .error e
      | .ok _ => .ok inst
    | _ => .error (.sentinel EXC_WRONG_NUMBER_OF_ARGUMENTS)

/-- The stand-in collaborators with the checking `IntegerInstance` constructor. -/
def sample_env_checked : Collaborators SampleInstance String :=
  { sample_env with IntegerInstance := checked_integer_constructor }

/-- A property of the state in which a call ends, by return or by throw. -/
def Outcome.holds {σ : Type} (Q : σ → Prop) : Outcome σ → Prop
  | .returned _ st => Q st
  | .thrown _ st => Q st
  | .undefined => True

/-- How one call of the dispatcher can change the registry: entries are removed or
replaced in place, or the instance constructed by `execute_in_type` is inserted under
its name. -/
def registry_step (env : Collaborators I F) (parser : Parser) (st st' : Context I F) : Prop :=
  (Registry.keys st'._instances).Sublist (Registry.keys st._instances)
    ∨ ∃ inst,
        construct env (remove_spaces parser.actor) parser.message_name parser.arguments
          = .ok (some inst)
        ∧ st'._instances = Registry.insert (env.name inst) inst st._instances

/-! ## Lemmas on strings and on the registry -/

theorem str_less_iff (a b : String) : str_less a b = true ↔ a < b := by
  simp [str_less, String.lt_iff_toList_lt]

theorem str_less_eq_false_iff (a b : String) : str_less a b = false ↔ ¬ a < b := by
  rw [← str_less_iff]; simp

namespace Registry

theorem find_eq_none_iff (m : List (String × I)) (k : String) :
    find m k = none ↔ k ∉ keys m := by
  induction m with
  | nil => simp [find, keys]
  | cons e t ih =>
    obtain ⟨k', v⟩ := e
    by_cases h : k' = k
    · simp [find, keys, h]
    · have h' : ¬ k = k' := fun x => h x.symm
      simp [find, h, h', ih, keys]

theorem find_isSome_iff (m : List (String × I)) (k : String) :
    (find m k).isSome = true ↔ k ∈ keys m := by
  rw [← not_iff_not, ← find_eq_none_iff]
  cases find m k <;> simp

theorem wf_cons {e : String × I} {t : List (String × I)} (h : WF (e :: t)) :
    (∀ x ∈ keys t, str_less e.1 x = true) ∧ WF t := by
  simpa [WF, keys] using h

theorem wf_nodup {m : List (String × I)} (h : WF m) : (keys m).Nodup := by
  unfold WF at h
  exact h.imp (fun hab => ne_of_lt ((str_less_iff _ _).mp hab))

theorem find_filter (q : String → Bool) (m : List (String × I)) (k : String) :
    find (m.filter (fun e => q e.1)) k = if q k then find m k else none := by
  induction m with
  | nil => simp [find]
  | cons e t ih =>
    obtain ⟨k', v⟩ := e
    by_cases hq : q k' = true
    · by_cases h : k' = k
      · subst h; simp [List.filter, hq, find]
      · simp [List.filter, hq, find, h, ih]
    · by_cases h : k' = k
      · subst h; simp [List.filter, hq, find, ih]
      · simp [List.filter, hq, find, h, ih]

theorem find_insert_self (k : String) (v : I) (m : List (String × I))
    (h : find m k = none) : find (insert k v m) k = some v := by
  induction m with
  | nil => simp [insert, find]
  | cons e t ih =>
    obtain ⟨k', v'⟩ := e
    have hk : ¬ k' = k := by
      intro hk; simp [find, hk] at h
    have hk' : ¬ k = k' := fun x => hk x.symm
    have ht : find t k = none := by simpa [find, hk] using h
    by_cases hl : str_less k k' = true
    · simp [insert, hl, find]
    · simp [insert, hl, hk, hk', find, ih ht]

end Registry

theorem delete_loop_insert (k : String) (v : I) (m : List (String × I))
    (h : Registry.find m k = none) : delete_loop k (Registry.insert k v m) = some m := by
  induction m with
  | nil => simp [Registry.insert, delete_loop]
  | cons e t ih =>
    obtain ⟨k', v'⟩ := e
    have hk : ¬ k' = k := by
      intro hk; simp [Registry.find, hk] at h
    have hk' : ¬ k = k' := fun x => hk x.symm
    have ht : Registry.find t k = none := by simpa [Registry.find, hk] using h
    by_cases hl : str_less k k' = true
    · simp [Registry.insert, hl, delete_loop]
    · simp [Registry.insert, hl, hk, hk', delete_loop, ih ht]

theorem delete_loop_eq_none_iff (k : String) (m : List (String × I)) :
    delete_loop k m = none ↔ Registry.find m k = none := by
  induction m with
  | nil => simp [delete_loop, Registry.find]
  | cons e t ih =>
    obtain ⟨k', v'⟩ := e
    by_cases hk : k' = k
    · simp [delete_loop, Registry.find, hk]
    · simp [delete_loop, Registry.find, hk, ih]

theorem delete_loop_eq_filter (k : String) (m : List (String × I)) (hwf : Registry.WF m)
    (m' : List (String × I)) (h : delete_loop k m = some m') :
    m' = m.filter (fun e => e.1 != k) := by
  induction m generalizing m' with
  | nil => simp [delete_loop] at h
  | cons e t ih =>
    obtain ⟨k', v'⟩ := e
    obtain ⟨hlt, hwt⟩ := Registry.wf_cons hwf
    by_cases hk : k' = k
    · subst hk
      simp only [delete_loop, if_true, Option.some.injEq] at h
      subst h
      have hall : ∀ e ∈ t, (e.1 != k') = true := by
        intro e he
        have : k' < e.1 :=
          (str_less_iff _ _).mp
            (hlt e.1 (by simp only [Registry.keys]; exact List.mem_map_of_mem _ he))
        simpa using (ne_of_lt this).symm
      rw [List.filter_cons_of_neg (by simp), List.filter_eq_self.mpr hall]
    · simp only [delete_loop, hk, if_false, Option.map_eq_some'] at h
      obtain ⟨t', ht', rfl⟩ := h
      have hb : (k' != k) = true := by simpa using hk
      rw [List.filter_cons_of_pos (by simpa using hb), ← ih hwt t' ht']

/-! ## Creation through a type actor -/

/-- C1: when the selector does not start with `createIfNotExists:` and the name of the
constructed instance is already bound, `execute_in_type` throws
`EXC_VARIABLE_NAME_ALREADY_USED` and the state at the throw is the state before the
call, so the registry has the same keys and the same instance at every key. -/
theorem execute_in_type_name_already_used (env : Collaborators I F) (st : Context I F)
    (parser : Parser) (inst bound : I)
    (hc : construct env (remove_spaces parser.actor) parser.message_name parser.arguments
      = .ok (some inst))
    (hb : Registry.find st._instances (env.name inst) = some bound)
    (hs : starts_with parser.message_name "createIfNotExists:" = false) :
    execute_in_type env st parser = .thrown (.sentinel EXC_VARIABLE_NAME_ALREADY_USED) st := by
  simp only [execute_in_type, hc, hb, hs]
  rfl

theorem execute_in_type_name_already_used_witness :
    construct sample_env (remove_spaces "Integer") "create:withValue:" ["x", "1"]
        = .ok (some ⟨"x", "Integer", ["1"]⟩)
      ∧ Registry.find sample_with_x._instances "x" = some ⟨"x", "Integer", ["0"]⟩
      ∧ starts_with "create:withValue:" "createIfNotExists:" = false
      ∧ execute_in_type sample_env sample_with_x ⟨"Integer", "create:withValue:", ["x", "1"]⟩
        = .thrown (.sentinel "EXC_VARIABLE_NAME_ALREADY_USED") sample_with_x :=
  ⟨rfl, by decide, by decide,
    execute_in_type_name_already_used sample_env sample_with_x
      ⟨"Integer", "create:withValue:", ["x", "1"]⟩ ⟨"x", "Integer", ["1"]⟩
      ⟨"x", "Integer", ["0"]⟩ rfl (by decide) (by decide)⟩

/-- C2: when `createIfNotExists:` is a prefix of the selector and the name of the
constructed instance is already bound, `execute_in_type` replies `null` and the state
after the call is the state before it; hence any number of such calls, one after the
other, all return and leave that same state, in which the name is bound to the
instance it was bound to. -/
theorem execute_in_type_createIfNotExists_bound (env : Collaborators I F)
    (st : Context I F) (parser : Parser) (inst bound : I)
    (hc : construct env (remove_spaces parser.actor) parser.message_name parser.arguments
      = .ok (some inst))
    (hb : Registry.find st._instances (env.name inst) = some bound)
    (hs : starts_with parser.message_name "createIfNotExists:" = true) :
    execute_in_type env st parser = .returned "null" st
      ∧ ∀ n, repeat_execute_in_type env parser n st = some st := by
  have h1 : execute_in_type env st parser = .returned "null" st := by
    simp only [execute_in_type, hc, hb, hs]
    rfl
  refine ⟨h1, fun n => ?_⟩
  induction n with
  | zero => rfl
  | succ n ih => simp only [repeat_execute_in_type, h1, ih]

theorem execute_in_type_createIfNotExists_bound_witness :
    construct sample_env (remove_spaces "Vector<Integer>") "createIfNotExists:withElements:"
          ["x", "[1,2]"]
        = .ok (some ⟨"x", "Vector<Integer>", ["[1,2]"]⟩)
      ∧ Registry.find sample_with_x._instances "x" = some ⟨"x", "Integer", ["0"]⟩
      ∧ starts_with "createIfNotExists:withElements:" "createIfNotExists:" = true
      ∧ (execute_in_type sample_env sample_with_x
            ⟨"Vector<Integer>", "createIfNotExists:withElements:", ["x", "[1,2]"]⟩
          = .returned "null" sample_with_x
        ∧ ∀ n, repeat_execute_in_type sample_env
            ⟨"Vector<Integer>", "createIfNotExists:withElements:", ["x", "[1,2]"]⟩ n
              sample_with_x
          = some sample_with_x) :=
  ⟨rfl, by decide, by decide,
    execute_in_type_createIfNotExists_bound sample_env sample_with_x
      ⟨"Vector<Integer>", "createIfNotExists:withElements:", ["x", "[1,2]"]⟩
      ⟨"x", "Vector<Integer>", ["[1,2]"]⟩ ⟨"x", "Integer", ["0"]⟩ rfl (by decide) (by decide)⟩

/-- C3: for a valid variable name `X` that is not bound, a type-actor message whose
constructed instance is named `X` replies `null`, and `Context deleteVariable: X` in
the state it leaves replies `null` and leaves the state from before the creation
(same registry entries, same tunables). -/
theorem create_then_deleteVariable (env : Collaborators I F) (st : Context I F)
    (parser : Parser) (inst : I) (X : String)
    (hc : construct env (remove_spaces parser.actor) parser.message_name parser.arguments
      = .ok (some inst))
    (hn : env.name inst = X)
    (hv : env.is_variable X = true)
    (hf : Registry.find st._instances X = none) :
    ∃ st1, execute_in_type env st parser = .returned "null" st1
      ∧ Registry.find st1._instances X = some inst
      ∧ execute_in_context env st1 ⟨"Context", "deleteVariable:", [X]⟩ = .returned "null" st := by
  subst hn
  refine ⟨{ st with _instances := Registry.insert (env.name inst) inst st._instances }, ?_, ?_, ?_⟩
  · simp only [execute_in_type, hc, hf]
  · exact Registry.find_insert_self (env.name inst) inst st._instances hf
  · have hd := delete_loop_insert (env.name inst) inst st._instances hf
    simp [execute_in_context, op_deleteVariable, hv, hd]

theorem create_then_deleteVariable_witness :
    construct sample_env (remove_spaces "Integer") "create:withValue:" ["ns::c", "7"]
        = .ok (some ⟨"ns::c", "Integer", ["7"]⟩)
      ∧ sample_env.name ⟨"ns::c", "Integer", ["7"]⟩ = "ns::c"
      ∧ sample_env.is_variable "ns::c" = true
      ∧ Registry.find sample_namespaced._instances "ns::c" = none
      ∧ ∃ st1, execute_in_type sample_env sample_namespaced
            ⟨"Integer", "create:withValue:", ["ns::c", "7"]⟩ = .returned "null" st1
          ∧ Registry.find st1._instances "ns::c" = some ⟨"ns::c", "Integer", ["7"]⟩
          ∧ execute_in_context sample_env st1 ⟨"Context", "deleteVariable:", ["ns::c"]⟩
            = .returned "null" sample_namespaced :=
  ⟨rfl, rfl, by decide, by decide,
    create_then_deleteVariable sample_env sample_namespaced
      ⟨"Integer", "create:withValue:", ["ns::c", "7"]⟩ ⟨"ns::c", "Integer", ["7"]⟩ "ns::c"
      rfl rfl (by decide) (by decide)⟩

/-! ## The dispatcher on an actor of no class -/

/-- C4 (the code departs from the claim): when the input parses and its actor is
neither a type, nor `Context`, nor a variable, nor `Connection`, no branch of
`execute` assigns `output` and nothing is thrown: the reply is the empty string, which
is not the text `EXC_INVALID_MESSAGE`; the state is unchanged. -/
theorem execute_unclassified_actor (env : Collaborators I F) (st : Context I F)
    (input : String) (parser : Parser) (session : String → List String → Except Exc String)
    (hp : env.parse input = .ok parser)
    (h1 : env.is_type parser.actor = false)
    (h2 : env.is_context parser.actor = false)
    (h3 : env.is_variable parser.actor = false)
    (h4 : env.is_connection parser.actor = false) :
    execute env st input session = some ("", st) ∧ "" ≠ EXC_INVALID_MESSAGE := by
  refine ⟨?_, by decide⟩
  simp [execute, dispatch, hp, h1, h2, h3, h4]

theorem execute_unclassified_actor_witness :
    sample_env.parse "9x foo" = .ok ⟨"9x", "foo", []⟩
      ∧ sample_env.is_type "9x" = false
      ∧ sample_env.is_context "9x" = false
      ∧ sample_env.is_variable "9x" = false
      ∧ sample_env.is_connection "9x" = false
      ∧ (execute sample_env sample_with_x "9x foo" sample_session = some ("", sample_with_x)
        ∧ "" ≠ EXC_INVALID_MESSAGE) :=
  ⟨rfl, by decide, by decide, by decide, by decide,
    execute_unclassified_actor sample_env sample_with_x "9x foo" ⟨"9x", "foo", []⟩
      sample_session rfl (by decide) (by decide) (by decide) (by decide)⟩

/-! ## Deleting variables -/

/-- C5: for a registry in `std::map` order and a single argument `X`:
if `X` is a valid variable name and is bound, `deleteVariable:` replies `null`, the new
registry is the old one without the entry of key `X` (every other key keeps its
instance, `X` is no longer bound) and the tunables are untouched; if `X` is valid and
not bound it throws `EXC_UNEXISTENT_VARIABLE` with the state unchanged; if `X` is not
a valid variable name it throws `EXC_INVALID_ARGUMENT` with the state unchanged. -/
theorem op_deleteVariable_spec (env : Collaborators I F) (st : Context I F) (X : String)
    (hwf : Registry.WF st._instances) :
    (env.is_variable X = true → ∀ bound, Registry.find st._instances X = some bound →
      ∃ st', op_deleteVariable env st [X] = .returned "null" st'
        ∧ st'._instances = st._instances.filter (fun e => e.1 != X)
        ∧ (∀ k, Registry.find st'._instances k
            = if k = X then none else Registry.find st._instances k)
        ∧ st'._float_precision = st._float_precision
        ∧ st'._float_comparison_tolerance = st._float_comparison_tolerance)
    ∧ (env.is_variable X = true → Registry.find st._instances X = none →
      op_deleteVariable env st [X] = .thrown (.sentinel EXC_UNEXISTENT_VARIABLE) st)
    ∧ (env.is_variable X = false →
      op_deleteVariable env st [X] = .thrown (.sentinel EXC_INVALID_ARGUMENT) st) := by
  refine ⟨fun hv bound hb => ?_, fun hv hn => ?_, fun hv => ?_⟩
  · cases hd : delete_loop X st._instances with
    | none =>
      rw [delete_loop_eq_none_iff] at hd
      rw [hd] at hb
      cases hb
    | some m =>
      have hm := delete_loop_eq_filter X st._instances hwf m hd
      refine ⟨{ st with _instances := m }, ?_, hm, fun k => ?_, rfl, rfl⟩
      · simp [op_deleteVariable, hv, hd]
      · show Registry.find m k = _
        rw [hm, Registry.find_filter (fun key => key != X) st._instances k]
        by_cases hk : k = X <;> simp [hk]
  · have hd := (delete_loop_eq_none_iff X st._instances).mpr hn
    simp [op_deleteVariable, hv, hd]
  · simp [op_deleteVariable, hv]

theorem op_deleteVariable_spec_witness :
    Registry.WF sample_namespaced._instances
      ∧ op_deleteVariable sample_env sample_namespaced ["ns::a"]
        = .returned "null"
            ⟨[("ns::b", ⟨"ns::b", "Integer", ["2"]⟩), ("x", ⟨"x", "Integer", ["0"]⟩)],
              6, "0.000001"⟩
      ∧ op_deleteVariable sample_env sample_namespaced ["missing"]
        = .thrown (.sentinel "EXC_UNEXISTENT_VARIABLE") sample_namespaced
      ∧ op_deleteVariable sample_env sample_namespaced ["9x"]
        = .thrown (.sentinel "EXC_INVALID_ARGUMENT") sample_namespaced := by
  have hwf : Registry.WF sample_namespaced._instances := by
    unfold Registry.WF
    decide
  obtain ⟨h1, h2, h3⟩ := op_deleteVariable_spec sample_env sample_namespaced "ns::a" hwf
  obtain ⟨st', hst, hm, -, hp, ht⟩ := h1 (by decide) ⟨"ns::a", "Integer", ["1"]⟩ (by decide)
  refine ⟨hwf, ?_, ?_, ?_⟩
  · rw [hst]
    have : st' = ⟨[("ns::b", ⟨"ns::b", "Integer", ["2"]⟩), ("x", ⟨"x", "Integer", ["0"]⟩)],
        6, "0.000001"⟩ := by
      cases st' with
      | mk a b c =>
        simp only at hm hp ht
        subst hm hp ht
        decide
    rw [this]
  · exact (op_deleteVariable_spec sample_env sample_namespaced "missing" hwf).2.1
      (by decide) (by decide)
  · exact (op_deleteVariable_spec sample_env sample_namespaced "9x" hwf).2.2 (by decide)

theorem foldl_erase_cons_of_not_mem (e : String × I) (ks : List String) (h : e.1 ∉ ks)
    (t : List (String × I)) :
    ks.foldl (fun m key => Registry.erase key m) (e :: t)
      = e :: ks.foldl (fun m key => Registry.erase key m) t := by
  induction ks generalizing t with
  | nil => rfl
  | cons k ks ih =>
    have hk : ¬ e.1 = k := fun x => h (by simp [x])
    have hks : e.1 ∉ ks := fun x => h (by simp [x])
    simp only [List.foldl_cons, Registry.erase, hk, if_false]
    exact ih hks _

theorem foldl_erase_to_be_deleted (p : String) (m : List (String × I)) :
    (instances_to_be_deleted p m).foldl (fun m key => Registry.erase key m) m
      = m.filter (fun e => !starts_with e.1 p) := by
  induction m with
  | nil => rfl
  | cons e t ih =>
    by_cases hs : starts_with e.1 p = true
    · have h1 : instances_to_be_deleted p (e :: t) = e.1 :: instances_to_be_deleted p t := by
        simp [instances_to_be_deleted, Registry.keys, List.filter_cons, hs]
      rw [h1, List.filter_cons_of_neg (by simp [hs])]
      simp only [List.foldl_cons, Registry.erase, if_true]
      exact ih
    · have h1 : instances_to_be_deleted p (e :: t) = instances_to_be_deleted p t := by
        simp [instances_to_be_deleted, Registry.keys, List.filter_cons, hs]
      have h2 : e.1 ∉ instances_to_be_deleted p t := by
        intro hmem
        simp only [instances_to_be_deleted, List.mem_filter] at hmem
        exact hs hmem.2
      rw [h1, List.filter_cons_of_pos (by simp [hs]), foldl_erase_cons_of_not_mem e _ h2, ih]

/-- C6: for a valid namespace `ns`, `deleteVariablesOfNamespace: ns` replies `null`;
the new registry consists of exactly the old entries whose key does not start with
`ns::`, in their old order and with their old instances, so a key that starts with
`ns::` is no longer bound and every other key is bound as before; the tunables are
untouched; and when no key starts with `ns::` the state does not change at all. -/
theorem op_deleteVariablesOfNamespace_spec (env : Collaborators I F) (st : Context I F)
    (ns : String) (hns : env.is_namespace ns = true) :
    ∃ st', op_deleteVariablesOfNamespace env st [ns] = .returned "null" st'
      ∧ st'._instances = st._instances.filter (fun e => !starts_with e.1 (ns ++ "::"))
      ∧ (∀ k, Registry.find st'._instances k
          = if starts_with k (ns ++ "::") then none else Registry.find st._instances k)
      ∧ st'._float_precision = st._float_precision
      ∧ st'._float_comparison_tolerance = st._float_comparison_tolerance
      ∧ ((∀ k ∈ Registry.keys st._instances, starts_with k (ns ++ "::") = false) → st' = st) := by
  have hf := foldl_erase_to_be_deleted (ns ++ "::") st._instances
  refine ⟨{ st with _instances := st._instances.filter (fun e => !starts_with e.1 (ns ++ "::")) },
    ?_, rfl, fun k => ?_, rfl, rfl, fun hall => ?_⟩
  · simp [op_deleteVariablesOfNamespace, hns, hf]
  · show Registry.find (st._instances.filter (fun e => !starts_with e.1 (ns ++ "::"))) k = _
    rw [Registry.find_filter (fun key => !starts_with key (ns ++ "::")) st._instances k]
    cases starts_with k (ns ++ "::") <;> simp
  · have hself : st._instances.filter (fun e => !starts_with e.1 (ns ++ "::")) = st._instances := by
      apply List.filter_eq_self.mpr
      intro e he
      have := hall e.1 (by simp only [Registry.keys]; exact List.mem_map_of_mem _ he)
      simp [this]
    rw [hself]

theorem op_deleteVariablesOfNamespace_spec_witness :
    sample_env.is_namespace "ns" = true
      ∧ op_deleteVariablesOfNamespace sample_env sample_namespaced ["ns"]
        = .returned "null" ⟨[("x", ⟨"x", "Integer", ["0"]⟩)], 6, "0.000001"⟩
      ∧ op_deleteVariablesOfNamespace sample_env sample_with_x ["ns"]
        = .returned "null" sample_with_x := by
  obtain ⟨st', hst, hm, -, hp, ht, -⟩ :=
    op_deleteVariablesOfNamespace_spec sample_env sample_namespaced "ns" (by decide)
  obtain ⟨st'', hst', -, -, -, -, hsame⟩ :=
    op_deleteVariablesOfNamespace_spec sample_env sample_with_x "ns" (by decide)
  refine ⟨by decide, ?_, ?_⟩
  · rw [hst]
    have : st' = ⟨[("x", ⟨"x", "Integer", ["0"]⟩)], 6, "0.000001"⟩ := by
      cases st' with
      | mk a b c =>
        simp only at hm hp ht
        subst hm hp ht
        decide
    rw [this]
  · rw [hst', hsame (by decide)]

/-! ## Listing -/

theorem join_loop_false (acc : String) (xs : List String) :
    join_loop false acc xs = String.intercalate.go acc "," xs := by
  induction xs generalizing acc with
  | nil => rfl
  | cons x xs ih => simp [join_loop, String.intercalate.go, ih]

theorem join_loop_true (xs : List String) :
    join_loop true "" xs = String.intercalate "," xs := by
  cases xs with
  | nil => rfl
  | cons x xs => simp [join_loop, String.intercalate, join_loop_false]

/-- C7: for a registry in `std::map` order, `listVariables` without arguments replies
`[` + the keys joined by `,` + `]` and leaves the state unchanged, where the keys are
strictly ascending in the order of `std::string`, without repetition, and a name is
among them exactly when it is bound; for the empty registry the reply is `[]`. -/
theorem op_listVariables_spec (st : Context I F) (hwf : Registry.WF st._instances) :
    op_listVariables st []
        = .returned ("[" ++ String.intercalate "," (Registry.keys st._instances) ++ "]") st
      ∧ (Registry.keys st._instances).Pairwise (fun a b => str_less a b = true)
      ∧ (Registry.keys st._instances).Nodup
      ∧ (∀ k, k ∈ Registry.keys st._instances ↔ (Registry.find st._instances k).isSome = true)
      ∧ (st._instances = [] → op_listVariables st [] = .returned "[]" st) := by
  refine ⟨?_, hwf, Registry.wf_nodup hwf, fun k => (Registry.find_isSome_iff _ k).symm, ?_⟩
  · simp [op_listVariables, join_loop_true]
  · intro he
    simp [op_listVariables, he, Registry.keys, join_loop]

theorem op_listVariables_spec_witness :
    Registry.WF sample_namespaced._instances
      ∧ op_listVariables sample_namespaced [] = .returned "[ns::a,ns::b,x]" sample_namespaced := by
  have hwf : Registry.WF sample_namespaced._instances := by
    unfold Registry.WF
    decide
  refine ⟨hwf, ?_⟩
  rw [(op_listVariables_spec sample_namespaced hwf).1]
  decide

theorem mem_set_insert (a x : String) (s : List String) :
    a ∈ set_insert x s ↔ a = x ∨ a ∈ s := by
  induction s with
  | nil => simp [set_insert]
  | cons y ys ih =>
    by_cases h1 : str_less x y = true
    · simp [set_insert, h1]
    · have h1' : str_less x y = false := by simpa using h1
      by_cases h2 : x = y
      · subst h2
        simp [set_insert, h1']
      · simp only [set_insert, h1', h2, if_false, List.mem_cons, ih, Bool.false_eq_true]
        tauto

theorem pairwise_set_insert (x : String) (s : List String)
    (h : s.Pairwise (fun a b => str_less a b = true)) :
    (set_insert x s).Pairwise (fun a b => str_less a b = true) := by
  induction s with
  | nil => simp [set_insert]
  | cons y ys ih =>
    obtain ⟨hy, hys⟩ := List.pairwise_cons.mp h
    by_cases h1 : str_less x y = true
    · simp only [set_insert, h1, if_true]
      refine List.pairwise_cons.mpr ⟨fun z hz => ?_, h⟩
      rcases List.mem_cons.mp hz with hz | hz
      · rw [hz]; exact h1
      · exact (str_less_iff _ _).mpr
          (lt_trans ((str_less_iff _ _).mp h1) ((str_less_iff _ _).mp (hy z hz)))
    · have h1' : str_less x y = false := by simpa using h1
      by_cases h2 : x = y
      · subst h2
        simp only [set_insert, h1', if_true, if_false, Bool.false_eq_true]
        exact h
      · simp only [set_insert, h1', h2, if_false, Bool.false_eq_true]
        refine List.pairwise_cons.mpr ⟨fun z hz => ?_, ih hys⟩
        rcases (mem_set_insert z x ys).mp hz with hz | hz
        · rw [hz]
          have hn : ¬ x < y := fun hlt => h1 ((str_less_iff _ _).mpr hlt)
          exact (str_less_iff _ _).mpr (lt_of_le_of_ne (not_lt.mp hn) (fun e => h2 e.symm))
        · exact hy z hz

/-- The test of the inner loop of `op_listNamespaces` at index `i` of `key`. -/
theorem scope_at_iff (key p : String) :
    (∃ i, i < key.length - 1 ∧ key.toList[i]? = some ':' ∧ key.toList[i + 1]? = some ':'
        ∧ p = ⟨key.toList.take i⟩)
      ↔ ∃ rest : String, key = p ++ "::" ++ rest := by
  constructor
  · rintro ⟨i, -, h0, h1, rfl⟩
    refine ⟨⟨key.toList.drop (i + 2)⟩, ?_⟩
    apply String.ext
    obtain ⟨hi0, e0⟩ := List.getElem?_eq_some.mp h0
    obtain ⟨hi1, e1⟩ := List.getElem?_eq_some.mp h1
    have d0 : key.toList.drop i = ':' :: key.toList.drop (i + 1) := by
      rw [List.drop_eq_getElem_cons hi0, e0]
    have d1 : key.toList.drop (i + 1) = ':' :: key.toList.drop (i + 2) := by
      rw [List.drop_eq_getElem_cons hi1, e1]
    have hsplit := (List.take_append_drop i key.toList).symm
    rw [d0, d1] at hsplit
    simp only [String.data_append, String.toList] at hsplit ⊢
    rw [List.append_assoc]
    exact hsplit
  · rintro ⟨rest, rfl⟩
    have hl : (p ++ "::" ++ rest).toList = p.toList ++ ':' :: ':' :: rest.toList := by
      simp [String.toList, String.data_append]
    have hlen : (p ++ "::" ++ rest).length = p.length + 2 + rest.length := by
      simp [String.length_append]
      rfl
    have hpl : p.toList.length = p.length := rfl
    refine ⟨p.length, by omega, ?_, ?_, ?_⟩
    · rw [hl, List.getElem?_append_right (le_of_eq hpl), hpl, Nat.sub_self]
      rfl
    · rw [hl, List.getElem?_append_right (by omega), hpl, Nat.add_sub_cancel_left]
      simp
    · apply String.ext
      rw [hl, ← hpl, List.take_left' rfl]
      rfl

theorem mem_foldl_scope (key p : String) (is : List Nat) (ns : List String) :
    p ∈ is.foldl
        (fun ns i =>
          if key.toList[i]? = some ':' ∧ key.toList[i + 1]? = some ':'
          then set_insert ⟨key.toList.take i⟩ ns else ns) ns
      ↔ p ∈ ns ∨ ∃ i ∈ is, key.toList[i]? = some ':' ∧ key.toList[i + 1]? = some ':'
          ∧ p = ⟨key.toList.take i⟩ := by
  induction is generalizing ns with
  | nil => simp
  | cons j js ih =>
    rw [List.foldl_cons, ih]
    by_cases hj : key.toList[j]? = some ':' ∧ key.toList[j + 1]? = some ':'
    · rw [if_pos hj, mem_set_insert]
      constructor
      · rintro ((h | h) | ⟨i, hi, h⟩)
        · exact Or.inr ⟨j, by simp, hj.1, hj.2, h⟩
        · exact Or.inl h
        · exact Or.inr ⟨i, by simp [hi], h⟩
      · rintro (h | ⟨i, hi, h⟩)
        · exact Or.inl (Or.inr h)
        · rcases List.mem_cons.mp hi with hi | hi
          · subst hi; exact Or.inl (Or.inl h.2.2)
          · exact Or.inr ⟨i, hi, h⟩
    · rw [if_neg hj]
      constructor
      · rintro (h | ⟨i, hi, h⟩)
        · exact Or.inl h
        · exact Or.inr ⟨i, by simp [hi], h⟩
      · rintro (h | ⟨i, hi, h⟩)
        · exact Or.inl h
        · rcases List.mem_cons.mp hi with hi | hi
          · subst hi; exact absurd ⟨h.1, h.2.1⟩ hj
          · exact Or.inr ⟨i, hi, h⟩

theorem mem_namespaces_of_key (key p : String) (ns : List String) :
    p ∈ namespaces_of_key key ns ↔ p ∈ ns ∨ ∃ rest : String, key = p ++ "::" ++ rest := by
  unfold namespaces_of_key
  rw [mem_foldl_scope, ← scope_at_iff]
  simp only [List.mem_range]

theorem pairwise_namespaces_of_key (key : String) (ns : List String)
    (h : ns.Pairwise (fun a b => str_less a b = true)) :
    (namespaces_of_key key ns).Pairwise (fun a b => str_less a b = true) := by
  unfold namespaces_of_key
  generalize List.range (key.length - 1) = is
  induction is generalizing ns with
  | nil => exact h
  | cons j js ih =>
    rw [List.foldl_cons]
    apply ih
    split
    · exact pairwise_set_insert _ _ h
    · exact h

theorem mem_foldl_namespaces (keys : List String) (p : String) (ns : List String) :
    p ∈ keys.foldl (fun ns key => namespaces_of_key key ns) ns
      ↔ p ∈ ns ∨ ∃ key ∈ keys, ∃ rest : String, key = p ++ "::" ++ rest := by
  induction keys generalizing ns with
  | nil => simp
  | cons k ks ih =>
    rw [List.foldl_cons, ih, mem_namespaces_of_key]
    simp only [List.mem_cons, exists_eq_or_imp]
    tauto

theorem pairwise_foldl_namespaces (keys : List String) (ns : List String)
    (h : ns.Pairwise (fun a b => str_less a b = true)) :
    (keys.foldl (fun ns key => namespaces_of_key key ns) ns).Pairwise
      (fun a b => str_less a b = true) := by
  induction keys generalizing ns with
  | nil => exact h
  | cons k ks ih =>
    rw [List.foldl_cons]
    exact ih _ (pairwise_namespaces_of_key k ns h)

/-- C8: `listNamespaces` without arguments replies `[` + a list of strings joined by
`,` + `]` and leaves the state unchanged; the list is strictly ascending in the order
of `std::string`, has no repetition, and contains a string `p` exactly when some bound
name is `p` followed by `::` and any rest. -/
theorem op_listNamespaces_spec (st : Context I F) :
    ∃ ns : List String,
      op_listNamespaces st [] = .returned ("[" ++ String.intercalate "," ns ++ "]") st
        ∧ ns.Pairwise (fun a b => str_less a b = true)
        ∧ ns.Nodup
        ∧ ∀ p, p ∈ ns ↔
            ∃ name ∈ Registry.keys st._instances, ∃ rest : String, name = p ++ "::" ++ rest := by
  have hp := pairwise_foldl_namespaces (Registry.keys st._instances) [] List.Pairwise.nil
  refine ⟨(Registry.keys st._instances).foldl (fun ns key => namespaces_of_key key ns) [],
    ?_, hp, hp.imp (fun hab => ne_of_lt ((str_less_iff _ _).mp hab)), fun p => ?_⟩
  · simp [op_listNamespaces, join_loop_true]
  · rw [mem_foldl_namespaces]
    simp

theorem starts_with_length (key p : String) (h : starts_with key p = true) :
    p.length ≤ key.length := by
  unfold starts_with at h
  exact (List.isPrefixOf_iff_prefix.mp h).length_le

theorem namespace_loop_nonempty (p : String) (keys : List String) (acc : String)
    (hacc : 0 < acc.length) :
    namespace_loop p acc keys
      = String.intercalate.go acc "," (keys.filter (fun k => starts_with k p)) := by
  induction keys generalizing acc with
  | nil => rfl
  | cons k ks ih =>
    by_cases hk : starts_with k p = true
    · rw [List.filter_cons_of_pos (by simpa using hk)]
      simp only [namespace_loop, hk, Bool.not_true, Bool.false_eq_true, if_false, gt_iff_lt,
        hacc, if_true, String.intercalate.go]
      apply ih
      simp only [String.length_append]
      omega
    · rw [List.filter_cons_of_neg (by simpa using hk)]
      have hk' : starts_with k p = false := by simpa using hk
      simp only [namespace_loop, hk', Bool.not_false, if_true]
      exact ih acc hacc

theorem namespace_loop_empty (p : String) (hp : 0 < p.length) (keys : List String) :
    namespace_loop p "" keys
      = String.intercalate "," (keys.filter (fun k => starts_with k p)) := by
  induction keys with
  | nil => rfl
  | cons k ks ih =>
    by_cases hk : starts_with k p = true
    · rw [List.filter_cons_of_pos (by simpa using hk)]
      have hlen : 0 < k.length := lt_of_lt_of_le hp (starts_with_length k p hk)
      have h0 : ¬ (0 < ("" : String).length) := by decide
      simp only [namespace_loop, hk, Bool.not_true, Bool.false_eq_true, if_false, gt_iff_lt,
        h0, String.intercalate]
      rw [namespace_loop_nonempty p ks ("" ++ k) (by simpa using hlen)]
      simp
    · rw [List.filter_cons_of_neg (by simpa using hk)]
      have hk' : starts_with k p = false := by simpa using hk
      simp only [namespace_loop, hk', Bool.not_false, if_true]
      exact ih

/-- C9: for a registry in `std::map` order and a valid namespace `ns`,
`listVariablesOfNamespace: ns` replies `[` + the comma-joined list + `]` of the bound
names that start with `ns::` and leaves the state unchanged; that list is strictly
ascending in the order of `std::string`, has no repetition and no empty element, and
a name is in it exactly when it is bound and starts with `ns::`. An argument that is
not a namespace makes the operation throw `EXC_INVALID_ARGUMENT`, state unchanged. -/
theorem op_listVariablesOfNamespace_spec (env : Collaborators I F) (st : Context I F)
    (hwf : Registry.WF st._instances) :
    (∀ ns, env.is_namespace ns = true →
      op_listVariablesOfNamespace env st [ns]
          = .returned ("[" ++ String.intercalate ","
              ((Registry.keys st._instances).filter (fun k => starts_with k (ns ++ "::")))
              ++ "]") st
        ∧ ((Registry.keys st._instances).filter (fun k => starts_with k (ns ++ "::"))).Pairwise
            (fun a b => str_less a b = true)
        ∧ ((Registry.keys st._instances).filter (fun k => starts_with k (ns ++ "::"))).Nodup
        ∧ (∀ k, k ∈ (Registry.keys st._instances).filter (fun k => starts_with k (ns ++ "::"))
            ↔ (Registry.find st._instances k).isSome = true ∧ starts_with k (ns ++ "::") = true)
        ∧ ∀ k ∈ (Registry.keys st._instances).filter (fun k => starts_with k (ns ++ "::")),
            k ≠ "")
    ∧ (∀ a, env.is_namespace a = false →
      op_listVariablesOfNamespace env st [a] = .thrown (.sentinel EXC_INVALID_ARGUMENT) st) := by
  refine ⟨fun ns hns => ⟨?_, ?_, ?_, fun k => ?_, fun k hk => ?_⟩, fun a ha => ?_⟩
  · have hp : 0 < (ns ++ "::").length := by
      simp only [String.length_append]
      exact Nat.lt_of_lt_of_le (by decide : 0 < ("::" : String).length) (Nat.le_add_left _ _)
    simp [op_listVariablesOfNamespace, hns, namespace_loop_empty _ hp]
  · exact List.Pairwise.sublist (List.filter_sublist _) hwf
  · exact (Registry.wf_nodup hwf).sublist (List.filter_sublist _)
  · rw [List.mem_filter, Registry.find_isSome_iff]
  · intro he
    subst he
    have h := starts_with_length "" (ns ++ "::") (List.mem_filter.mp hk).2
    simp only [String.length_append] at h
    have h2 : ("::" : String).length = 2 := by decide
    have h0 : ("" : String).length = 0 := by decide
    omega
  · simp [op_listVariablesOfNamespace, ha]

theorem op_listVariablesOfNamespace_spec_witness :
    Registry.WF sample_namespaced._instances
      ∧ sample_env.is_namespace "ns" = true
      ∧ op_listVariablesOfNamespace sample_env sample_namespaced ["ns"]
        = .returned "[ns::a,ns::b]" sample_namespaced
      ∧ sample_env.is_namespace "ns::a" = false
      ∧ op_listVariablesOfNamespace sample_env sample_namespaced ["ns::a"]
        = .thrown (.sentinel "EXC_INVALID_ARGUMENT") sample_namespaced := by
  have hwf : Registry.WF sample_namespaced._instances := by
    unfold Registry.WF
    decide
  have h := op_listVariablesOfNamespace_spec sample_env sample_namespaced hwf
  refine ⟨hwf, by decide, ?_, by decide, h.2 "ns::a" (by decide)⟩
  rw [(h.1 "ns" (by decide)).1]
  decide

/-! ## The float precision -/

theorem to_int_eq_self (n : Int) (h1 : - 2 ^ 31 ≤ n) (h2 : n < 2 ^ 31) : to_int n = n := by
  unfold to_int
  rw [Int.emod_eq_of_lt (by omega) (by omega)]
  omega

/-- What `op_setFloatPrecision` does with a literal of value `n`: the test and the
assignment use `n` converted to `int`. -/
theorem op_setFloatPrecision_eq (env : Collaborators I F) (st : Context I F) (a : String)
    (n : Int) (hv : env.integer_value a = .ok n) :
    op_setFloatPrecision env st [a]
      = if to_int n ≤ 0 then .thrown (.sentinel EXC_INVALID_ARGUMENT) st
        else .returned "null" { st with _float_precision := to_int n } := by
  simp only [op_setFloatPrecision, hv]

/-- Within the range of `int` the operation is as the table of §4.4.1 says: a positive
`n` is stored and read back by `getFloatPrecision`, any other `n` is rejected with the
state unchanged. -/
theorem op_setFloatPrecision_in_int_range (env : Collaborators I F) (st : Context I F)
    (a : String) (n : Int) (hv : env.integer_value a = .ok n)
    (h1 : - 2 ^ 31 ≤ n) (h2 : n < 2 ^ 31) :
    (0 < n →
      op_setFloatPrecision env st [a] = .returned "null" { st with _float_precision := n }
        ∧ op_getFloatPrecision env { st with _float_precision := n } []
          = .returned (env.integer_representation n) { st with _float_precision := n })
    ∧ (n ≤ 0 →
      op_setFloatPrecision env st [a] = .thrown (.sentinel EXC_INVALID_ARGUMENT) st) := by
  rw [op_setFloatPrecision_eq env st a n hv, to_int_eq_self n h1 h2]
  constructor
  · intro hn
    rw [if_neg (by omega)]
    exact ⟨rfl, rfl⟩
  · intro hn
    rw [if_pos hn]

/-- C10 (the code departs from the claim): the value of the literal is converted to
`int` before the test `float_precision <= 0`. A literal of value 2147483648, positive
and within 64 bits, is rejected with `EXC_INVALID_ARGUMENT`; a literal of value
4294967297 is accepted but the precision becomes 1, which is what `getFloatPrecision`
then renders; a literal of value -4294967295, not positive, is accepted and sets the
precision to 1. -/
theorem op_setFloatPrecision_narrows (env : Collaborators I F) (st : Context I F)
    (a b c : String)
    (ha : env.integer_value a = .ok 2147483648)
    (hb : env.integer_value b = .ok 4294967297)
    (hc : env.integer_value c = .ok (-4294967295)) :
    op_setFloatPrecision env st [a] = .thrown (.sentinel EXC_INVALID_ARGUMENT) st
      ∧ op_setFloatPrecision env st [b] = .returned "null" { st with _float_precision := 1 }
      ∧ op_getFloatPrecision env { st with _float_precision := 1 } []
        = .returned (env.integer_representation 1) { st with _float_precision := 1 }
      ∧ op_setFloatPrecision env st [c] = .returned "null" { st with _float_precision := 1 } := by
  refine ⟨?_, ?_, rfl, ?_⟩
  · rw [op_setFloatPrecision_eq env st a _ ha]
    have : to_int 2147483648 = -2147483648 := by decide
    rw [this]
    rfl
  · rw [op_setFloatPrecision_eq env st b _ hb]
    have : to_int 4294967297 = 1 := by decide
    rw [this]
    rfl
  · rw [op_setFloatPrecision_eq env st c _ hc]
    have : to_int (-4294967295) = 1 := by decide
    rw [this]
    rfl

theorem op_setFloatPrecision_narrows_witness :
    sample_env.integer_value "2147483648" = .ok 2147483648
      ∧ sample_env.integer_value "4294967297" = .ok 4294967297
      ∧ sample_env.integer_value "-4294967295" = .ok (-4294967295)
      ∧ (op_setFloatPrecision sample_env sample_initial ["2147483648"]
          = .thrown (.sentinel EXC_INVALID_ARGUMENT) sample_initial
        ∧ op_setFloatPrecision sample_env sample_initial ["4294967297"]
          = .returned "null" { sample_initial with _float_precision := 1 }
        ∧ op_getFloatPrecision sample_env { sample_initial with _float_precision := 1 } []
          = .returned (sample_env.integer_representation 1)
              { sample_initial with _float_precision := 1 }
        ∧ op_setFloatPrecision sample_env sample_initial ["-4294967295"]
          = .returned "null" { sample_initial with _float_precision := 1 })
      ∧ sample_env.integer_representation 1 = "1" :=
  ⟨rfl, rfl, rfl,
    op_setFloatPrecision_narrows sample_env sample_initial "2147483648" "4294967297"
      "-4294967295" rfl rfl rfl,
    by decide⟩

/-! ## The order of the registry is kept by the operations that change it -/

namespace Registry

theorem wf_nil : WF ([] : List (String × I)) := List.Pairwise.nil

theorem mem_keys_insert (a k : String) (v : I) (m : List (String × I)) :
    a ∈ keys (insert k v m) ↔ a = k ∨ a ∈ keys m := by
  induction m with
  | nil => simp [insert, keys]
  | cons e t ih =>
    obtain ⟨k', v'⟩ := e
    by_cases h1 : str_less k k' = true
    · simp [insert, h1, keys]
    · have h1' : str_less k k' = false := by simpa using h1
      by_cases h2 : k = k'
      · subst h2
        simp [insert, h1', keys]
      · have ih' : a ∈ List.map Prod.fst (insert k v t) ↔ a = k ∨ a ∈ List.map Prod.fst t := ih
        simp only [insert, h1', h2, if_false, keys, List.map_cons, List.mem_cons, ih',
          Bool.false_eq_true]
        tauto

theorem wf_insert (k : String) (v : I) (m : List (String × I)) (h : WF m) :
    WF (insert k v m) := by
  induction m with
  | nil => simp [insert, WF, keys]
  | cons e t ih =>
    obtain ⟨k', v'⟩ := e
    obtain ⟨hy, ht⟩ := wf_cons h
    by_cases h1 : str_less k k' = true
    · simp only [insert, h1, if_true]
      refine List.pairwise_cons.mpr ⟨fun z hz => ?_, h⟩
      rcases List.mem_cons.mp hz with hz | hz
      · rw [hz]; exact h1
      · exact (str_less_iff _ _).mpr
          (lt_trans ((str_less_iff _ _).mp h1) ((str_less_iff _ _).mp (hy z hz)))
    · have h1' : str_less k k' = false := by simpa using h1
      by_cases h2 : k = k'
      · subst h2
        simp only [insert, h1', if_true, if_false, Bool.false_eq_true]
        exact h
      · simp only [insert, h1', h2, if_false, Bool.false_eq_true]
        refine List.pairwise_cons.mpr ⟨fun z hz => ?_, ih ht⟩
        rcases (mem_keys_insert z k v t).mp hz with hz | hz
        · rw [hz]
          have hn : ¬ k < k' := fun hlt => h1 ((str_less_iff _ _).mpr hlt)
          exact (str_less_iff _ _).mpr (lt_of_le_of_ne (not_lt.mp hn) (fun e => h2 e.symm))
        · exact hy z hz

theorem wf_filter (q : String × I → Bool) (m : List (String × I)) (h : WF m) :
    WF (m.filter q) :=
  List.Pairwise.sublist ((List.filter_sublist m).map Prod.fst) h

end Registry

/-! ## Arity and unknown selectors of the context operations -/

/-- The seven context operations that test `arguments.size()`: an argument list whose
length is not the arity of the selector makes them throw
`EXC_WRONG_NUMBER_OF_ARGUMENTS`, state unchanged. -/
theorem context_arity_checked (env : Collaborators I F) (st : Context I F)
    (arguments : List String) :
    (arguments.length ≠ 0 →
      op_listNamespaces st arguments = .thrown (.sentinel EXC_WRONG_NUMBER_OF_ARGUMENTS) st
        ∧ op_listVariables st arguments
          = .thrown (.sentinel EXC_WRONG_NUMBER_OF_ARGUMENTS) st)
    ∧ (arguments.length ≠ 1 →
      op_listVariablesOfNamespace env st arguments
          = .thrown (.sentinel EXC_WRONG_NUMBER_OF_ARGUMENTS) st
        ∧ op_deleteVariable env st arguments
          = .thrown (.sentinel EXC_WRONG_NUMBER_OF_ARGUMENTS) st
        ∧ op_deleteVariablesOfNamespace env st arguments
          = .thrown (.sentinel EXC_WRONG_NUMBER_OF_ARGUMENTS) st
        ∧ op_setFloatPrecision env st arguments
          = .thrown (.sentinel EXC_WRONG_NUMBER_OF_ARGUMENTS) st
        ∧ op_setFloatComparisonTolerance env st arguments
          = .thrown (.sentinel EXC_WRONG_NUMBER_OF_ARGUMENTS) st) := by
  constructor
  · intro h
    simp [op_listNamespaces, op_listVariables, h]
  · intro h
    match arguments, h with
    | [], _ =>
      simp [op_listVariablesOfNamespace, op_deleteVariable, op_deleteVariablesOfNamespace,
        op_setFloatPrecision, op_setFloatComparisonTolerance]
    | [a], h => simp at h
    | _ :: _ :: _, _ =>
      simp [op_listVariablesOfNamespace, op_deleteVariable, op_deleteVariablesOfNamespace,
        op_setFloatPrecision, op_setFloatComparisonTolerance]

/-- C11 (the code departs from the claim): `op_getFloatPrecision` and
`op_getFloatComparisonTolerance` never test `arguments.size()`: for every argument
list, also one whose length is not 0, the selectors `getFloatPrecision` and
`getFloatComparisonTolerance` return the rendering of the tunable instead of throwing
`EXC_WRONG_NUMBER_OF_ARGUMENTS`. -/
theorem getFloat_operations_ignore_arguments (env : Collaborators I F) (st : Context I F)
    (actor : String) (arguments : List String) :
    execute_in_context env st ⟨actor, "getFloatPrecision", arguments⟩
        = .returned (env.integer_representation st._float_precision) st
      ∧ execute_in_context env st ⟨actor, "getFloatComparisonTolerance", arguments⟩
        = .returned
            (env.float_representation st._float_precision st._float_comparison_tolerance) st
      ∧ op_getFloatPrecision sample_env sample_initial ["1", "2"]
        = .returned "6" sample_initial := by
  refine ⟨?_, ?_, by decide⟩
  · have h : execute_in_context env st ⟨actor, "getFloatPrecision", arguments⟩
        = op_getFloatPrecision env st arguments := by
      simp [execute_in_context]
    rw [h]; rfl
  · have h : execute_in_context env st ⟨actor, "getFloatComparisonTolerance", arguments⟩
        = op_getFloatComparisonTolerance env st arguments := by
      simp [execute_in_context]
    rw [h]; rfl

/-- C13: a message to the context whose selector is none of the nine selectors of the
table makes `execute_in_context` throw `EXC_INVALID_MESSAGE`, whatever the arguments;
the state at the throw is the state before the call. -/
theorem execute_in_context_unknown_selector (env : Collaborators I F) (st : Context I F)
    (parser : Parser)
    (h1 : parser.message_name ≠ "listNamespaces")
    (h2 : parser.message_name ≠ "listVariables")
    (h3 : parser.message_name ≠ "listVariablesOfNamespace:")
    (h4 : parser.message_name ≠ "deleteVariable:")
    (h5 : parser.message_name ≠ "deleteVariablesOfNamespace:")
    (h6 : parser.message_name ≠ "getFloatPrecision")
    (h7 : parser.message_name ≠ "setFloatPrecision:")
    (h8 : parser.message_name ≠ "getFloatComparisonTolerance")
    (h9 : parser.message_name ≠ "setFloatComparisonTolerance:") :
    execute_in_context env st parser = .thrown (.sentinel EXC_INVALID_MESSAGE) st := by
  simp only [execute_in_context, h1, h2, h3, h4, h5, h6, h7, h8, h9, if_false]

theorem execute_in_context_unknown_selector_witness :
    execute_in_context sample_env sample_namespaced ⟨"Context", "listvariables", ["a", "b"]⟩
      = .thrown (.sentinel "EXC_INVALID_MESSAGE") sample_namespaced :=
  execute_in_context_unknown_selector sample_env sample_namespaced
    ⟨"Context", "listvariables", ["a", "b"]⟩ (by decide) (by decide) (by decide) (by decide)
    (by decide) (by decide) (by decide) (by decide) (by decide)

/-! ## Failures of the context operations leave the state alone -/

theorem op_listNamespaces_state (st : Context I F) (arguments : List String) :
    (∀ e st', op_listNamespaces st arguments = .thrown e st' → st' = st)
      ∧ (∀ r st', op_listNamespaces st arguments = .returned r st' → st' = st) := by
  unfold op_listNamespaces
  split <;> constructor <;> intro x st' h <;> cases h <;> rfl

theorem op_listVariables_state (st : Context I F) (arguments : List String) :
    (∀ e st', op_listVariables st arguments = .thrown e st' → st' = st)
      ∧ (∀ r st', op_listVariables st arguments = .returned r st' → st' = st) := by
  unfold op_listVariables
  split <;> constructor <;> intro x st' h <;> cases h <;> rfl

theorem op_listVariablesOfNamespace_state (env : Collaborators I F) (st : Context I F)
    (arguments : List String) :
    (∀ e st', op_listVariablesOfNamespace env st arguments = .thrown e st' → st' = st)
      ∧ (∀ r st', op_listVariablesOfNamespace env st arguments = .returned r st' → st' = st) := by
  unfold op_listVariablesOfNamespace
  split
  · split <;> constructor <;> intro x st' h <;> cases h <;> rfl
  · constructor
    · intro x st' h
      cases h
      rfl
    · intro x st' h
      cases h

theorem op_deleteVariable_thrown (env : Collaborators I F) (st : Context I F)
    (arguments : List String) (e : Exc) (st' : Context I F)
    (h : op_deleteVariable env st arguments = .thrown e st') : st' = st := by
  unfold op_deleteVariable at h
  split at h
  · split at h
    · cases h; rfl
    · split at h <;> cases h
      rfl
  · cases h; rfl

theorem op_deleteVariablesOfNamespace_thrown (env : Collaborators I F) (st : Context I F)
    (arguments : List String) (e : Exc) (st' : Context I F)
    (h : op_deleteVariablesOfNamespace env st arguments = .thrown e st') : st' = st := by
  unfold op_deleteVariablesOfNamespace at h
  split at h
  · split at h <;> cases h
    rfl
  · cases h; rfl

theorem op_setFloatPrecision_thrown (env : Collaborators I F) (st : Context I F)
    (arguments : List String) (e : Exc) (st' : Context I F)
    (h : op_setFloatPrecision env st arguments = .thrown e st') : st' = st := by
  unfold op_setFloatPrecision at h
  split at h
  · split at h
    · cases h; rfl
    · simp only at h
      split at h <;> cases h
      rfl
  · cases h; rfl

theorem op_setFloatComparisonTolerance_thrown (env : Collaborators I F) (st : Context I F)
    (arguments : List String) (e : Exc) (st' : Context I F)
    (h : op_setFloatComparisonTolerance env st arguments = .thrown e st') : st' = st := by
  unfold op_setFloatComparisonTolerance at h
  split at h
  · split at h
    · cases h; rfl
    · split at h <;> cases h
      rfl
  · cases h; rfl

/-- C20: whenever `execute_in_context` throws, whatever the selector and the arguments,
the state at the throw is the state before the call (registry, float precision and
comparison tolerance); and under the selectors `listNamespaces`, `listVariables`,
`listVariablesOfNamespace:`, `getFloatPrecision` and `getFloatComparisonTolerance` the
state after a call that returns is the state before it as well. -/
theorem execute_in_context_atomic (env : Collaborators I F) (st : Context I F)
    (parser : Parser) :
    (∀ e st', execute_in_context env st parser = .thrown e st' → st' = st)
      ∧ (parser.message_name ∈ ["listNamespaces", "listVariables",
            "listVariablesOfNamespace:", "getFloatPrecision", "getFloatComparisonTolerance"] →
          ∀ r st', execute_in_context env st parser = .returned r st' → st' = st) := by
  constructor
  · intro e st' h
    unfold execute_in_context at h
    simp only at h
    split at h
    · exact (op_listNamespaces_state st _).1 e st' h
    split at h
    · exact (op_listVariables_state st _).1 e st' h
    split at h
    · exact (op_listVariablesOfNamespace_state env st _).1 e st' h
    split at h
    · exact op_deleteVariable_thrown env st _ e st' h
    split at h
    · exact op_deleteVariablesOfNamespace_thrown env st _ e st' h
    split at h
    · cases h
    split at h
    · exact op_setFloatPrecision_thrown env st _ e st' h
    split at h
    · cases h
    split at h
    · exact op_setFloatComparisonTolerance_thrown env st _ e st' h
    · cases h; rfl
  · intro hm r st' h
    simp only [List.mem_cons, List.mem_singleton, List.not_mem_nil, or_false] at hm
    unfold execute_in_context at h
    rcases hm with hm | hm | hm | hm | hm <;> simp only [hm] at h
    · exact (op_listNamespaces_state st _).2 r st' h
    · exact (op_listVariables_state st _).2 r st' (by simpa using h)
    · exact (op_listVariablesOfNamespace_state env st _).2 r st' (by simpa using h)
    · have h' : op_getFloatPrecision env st parser.arguments = .returned r st' := by
        simpa using h
      cases h'; rfl
    · have h' : op_getFloatComparisonTolerance env st parser.arguments = .returned r st' := by
        simpa using h
      cases h'; rfl

theorem execute_in_context_atomic_witness :
    execute_in_context sample_env sample_namespaced ⟨"Context", "setFloatPrecision:", ["0"]⟩
        = .thrown (.sentinel "EXC_INVALID_ARGUMENT") sample_namespaced
      ∧ execute_in_context sample_env sample_namespaced ⟨"Context", "listNamespaces", []⟩
        = .returned "[ns]" sample_namespaced
      ∧ "listNamespaces" ∈ ["listNamespaces", "listVariables",
            "listVariablesOfNamespace:", "getFloatPrecision", "getFloatComparisonTolerance"]
      ∧ ((∀ e st', execute_in_context sample_env sample_namespaced
              ⟨"Context", "listNamespaces", []⟩ = .thrown e st' → st' = sample_namespaced)
        ∧ (("listNamespaces" : String) ∈ ["listNamespaces", "listVariables",
              "listVariablesOfNamespace:", "getFloatPrecision", "getFloatComparisonTolerance"] →
            ∀ r st', execute_in_context sample_env sample_namespaced
              ⟨"Context", "listNamespaces", []⟩ = .returned r st' → st' = sample_namespaced)) :=
  ⟨by decide, by decide, by decide,
    execute_in_context_atomic sample_env sample_namespaced ⟨"Context", "listNamespaces", []⟩⟩

/-! ## The constructor runs before the registry is consulted -/

/-- C18: when the constructor call of `execute_in_type` throws `e`, the outcome is that
throw with the state unchanged, whatever the registry holds, so also when the target
name is bound and the selector starts with `createIfNotExists:`; `execute` then replies
the text of `e`, which is `K` for a string sentinel `K`. -/
theorem execute_in_type_constructor_fails (env : Collaborators I F) (st : Context I F)
    (parser : Parser) (e : Exc)
    (hc : construct env (remove_spaces parser.actor) parser.message_name parser.arguments
      = .error e) :
    execute_in_type env st parser = .thrown e st
      ∧ ∀ input session, env.parse input = .ok parser → env.is_type parser.actor = true →
          execute env st input session = some (caught e, st) := by
  have h : execute_in_type env st parser = .thrown e st := by
    simp only [execute_in_type, hc]
  refine ⟨h, fun input session hp ht => ?_⟩
  simp only [execute, hp, dispatch, ht, if_true, h]
  cases e <;> rfl

theorem execute_in_type_constructor_fails_witness :
    construct sample_env_checked (remove_spaces "Integer") "createIfNotExists:withValue:"
          ["x", "ninety"]
        = .error (.sentinel "EXC_INVALID_ARGUMENT")
      ∧ Registry.find sample_with_x._instances "x" = some ⟨"x", "Integer", ["0"]⟩
      ∧ sample_env_checked.parse "Integer createIfNotExists: x, withValue: ninety"
        = .ok ⟨"Integer", "createIfNotExists:withValue:", ["x", "ninety"]⟩
      ∧ execute_in_type sample_env_checked sample_with_x
          ⟨"Integer", "createIfNotExists:withValue:", ["x", "ninety"]⟩
        = .thrown (.sentinel "EXC_INVALID_ARGUMENT") sample_with_x
      ∧ execute sample_env_checked sample_with_x
          "Integer createIfNotExists: x, withValue: ninety" sample_session
        = some ("EXC_INVALID_ARGUMENT", sample_with_x) := by
  have h := execute_in_type_constructor_fails sample_env_checked sample_with_x
    ⟨"Integer", "createIfNotExists:withValue:", ["x", "ninety"]⟩
    (.sentinel "EXC_INVALID_ARGUMENT") rfl
  exact ⟨rfl, by decide, rfl, h.1,
    h.2 "Integer createIfNotExists: x, withValue: ninety" sample_session rfl (by decide)⟩

/-! ## Messages to a variable -/

theorem keys_assign (k : String) (v : I) (m : List (String × I)) :
    Registry.keys (assign k v m) = Registry.keys m := by
  induction m with
  | nil => rfl
  | cons e t ih =>
    obtain ⟨k', v'⟩ := e
    have ih' : List.map Prod.fst (assign k v t) = List.map Prod.fst t := ih
    by_cases h : k' = k
    · simp [assign, h, Registry.keys]
    · simp [assign, h, Registry.keys, ih']

theorem find_assign (k : String) (v : I) (m : List (String × I)) (k' : String) :
    Registry.find (assign k v m) k'
      = if k' = k then (Registry.find m k).map (fun _ => v) else Registry.find m k' := by
  induction m with
  | nil => simp [assign, Registry.find]
  | cons e t ih =>
    obtain ⟨k0, v0⟩ := e
    by_cases h : k0 = k
    · subst h
      by_cases h' : k' = k0
      · subst h'
        simp [assign, Registry.find]
      · have h'' : ¬ k0 = k' := fun x => h' x.symm
        simp [assign, Registry.find, h', h'']
    · by_cases h' : k' = k
      · subst h'
        simp [assign, Registry.find, h, ih]
      · by_cases h0 : k0 = k'
        · simp [assign, Registry.find, h, h0, h']
        · simp [assign, Registry.find, h, h0, h', ih]

/-- C12: for an input that parses and whose actor is a variable and neither a type nor
`Context`: when no instance is bound under the actor, `execute` replies
`EXC_UNEXISTENT_VARIABLE` and the state is unchanged; when an instance is bound and
its `receive(message_name, arguments)` returns a reply, `execute` replies exactly that
reply, the registry has the same keys in the same order, every other key keeps its
instance and the actor is bound to the instance as `receive` left it; when `receive`
throws, the reply is the text of the exception and the keys are unchanged too. -/
theorem execute_variable_actor (env : Collaborators I F) (st : Context I F)
    (input : String) (parser : Parser) (session : String → List String → Except Exc String)
    (hp : env.parse input = .ok parser)
    (h1 : env.is_type parser.actor = false)
    (h2 : env.is_context parser.actor = false)
    (h3 : env.is_variable parser.actor = true) :
    (Registry.find st._instances parser.actor = none →
      execute env st input session = some (EXC_UNEXISTENT_VARIABLE, st))
    ∧ (∀ inst reply inst', Registry.find st._instances parser.actor = some inst →
        env.receive st._float_precision st._float_comparison_tolerance inst
            parser.message_name parser.arguments = .returned reply inst' →
        ∃ st', execute env st input session = some (reply, st')
          ∧ Registry.keys st'._instances = Registry.keys st._instances
          ∧ (∀ k, k ≠ parser.actor →
              Registry.find st'._instances k = Registry.find st._instances k)
          ∧ Registry.find st'._instances parser.actor = some inst'
          ∧ st'._float_precision = st._float_precision
          ∧ st'._float_comparison_tolerance = st._float_comparison_tolerance)
    ∧ (∀ inst e inst', Registry.find st._instances parser.actor = some inst →
        env.receive st._float_precision st._float_comparison_tolerance inst
            parser.message_name parser.arguments = .thrown e inst' →
        ∃ st', execute env st input session = some (caught e, st')
          ∧ Registry.keys st'._instances = Registry.keys st._instances) := by
  refine ⟨fun hf => ?_, fun inst reply inst' hf hr => ?_, fun inst e inst' hf hr => ?_⟩
  · simp [execute, hp, dispatch, h1, h2, h3, execute_in_variable, hf]
  · refine ⟨{ st with _instances := assign parser.actor inst' st._instances }, ?_,
      keys_assign _ _ _, fun k hk => ?_, ?_, rfl, rfl⟩
    · simp [execute, hp, dispatch, h1, h2, h3, execute_in_variable, hf, hr]
    · show Registry.find (assign parser.actor inst' st._instances) k = _
      rw [find_assign, if_neg hk]
    · show Registry.find (assign parser.actor inst' st._instances) parser.actor = _
      rw [find_assign, if_pos rfl, hf]
      rfl
  · refine ⟨{ st with _instances := assign parser.actor inst' st._instances }, ?_,
      keys_assign _ _ _⟩
    cases e <;> simp [execute, hp, dispatch, h1, h2, h3, execute_in_variable, hf, hr, caught]

theorem execute_variable_actor_witness :
    sample_env.parse "x setValue: 5" = .ok ⟨"x", "setValue:", ["5"]⟩
      ∧ sample_env.is_type "x" = false
      ∧ sample_env.is_context "x" = false
      ∧ sample_env.is_variable "x" = true
      ∧ execute sample_env sample_with_x "x setValue: 5" sample_session
        = some ("null", ⟨[("x", ⟨"x", "Integer", ["5"]⟩)], 6, "0.000001"⟩)
      ∧ execute sample_env sample_initial "x setValue: 5" sample_session
        = some ("EXC_UNEXISTENT_VARIABLE", sample_initial) := by
  have h := execute_variable_actor sample_env sample_with_x "x setValue: 5"
    ⟨"x", "setValue:", ["5"]⟩ sample_session rfl (by decide) (by decide) (by decide)
  have h0 := execute_variable_actor sample_env sample_initial "x setValue: 5"
    ⟨"x", "setValue:", ["5"]⟩ sample_session rfl (by decide) (by decide) (by decide)
  refine ⟨rfl, by decide, by decide, by decide, ?_, h0.1 (by decide)⟩
  obtain ⟨st', hst, -⟩ := h.2.1 ⟨"x", "Integer", ["0"]⟩ "null" ⟨"x", "Integer", ["5"]⟩
    (by decide) (by decide)
  rw [hst]
  have : execute sample_env sample_with_x "x setValue: 5" sample_session
      = some ("null", ⟨[("x", ⟨"x", "Integer", ["5"]⟩)], 6, "0.000001"⟩) := by decide
  rw [this] at hst
  exact hst.symm

/-! ## The type parameters of the collection types -/

theorem dictionary_loop_filter (env : Collaborators I F) (tod msg : String)
    (args : List String) (is : List Nat) (inst : Option I) :
    dictionary_loop env tod msg args is inst
      = dictionary_loop env tod msg args
          (is.filter (fun i => decide (tod.toList[i]? = some ','))) inst := by
  induction is generalizing inst with
  | nil => rfl
  | cons i rest ih =>
    by_cases hi : tod.toList[i]? = some ','
    · rw [List.filter_cons_of_pos (by simpa using hi)]
      simp only [dictionary_loop, hi, if_true, ih]
    · rw [List.filter_cons_of_neg (by simpa using hi)]
      simp only [dictionary_loop, hi, if_false]
      exact ih inst

theorem construct_dictionary (env : Collaborators I F)
    (type tod key_type value_type msg : String) (args : List String)
    (h0 : (decide (type = "Boolean") || decide (type = "Character")
        || decide (type = "Integer") || decide (type = "Float") || decide (type = "String")
        || starts_with type "Vector" || starts_with type "Set") = false)
    (h1 : starts_with type "Dictionary" = true)
    (h2 : substr type 11 (to_size_t ((type.length : Int) - 12)) = .ok tod)
    (h3 : (List.range tod.length).filter (fun i => decide (tod.toList[i]? = some ','))
      = [key_type.length])
    (h4 : substr tod 0 key_type.length = .ok key_type)
    (h5 : substr tod (key_type.length + 1) npos = .ok value_type) :
    construct env type msg args
      = (env.DictionaryInstance key_type value_type msg args).map some := by
  simp only [Bool.or_eq_false_iff, decide_eq_false_iff_not] at h0
  obtain ⟨⟨⟨⟨⟨⟨a1, a2⟩, a3⟩, a4⟩, a5⟩, a6⟩, a7⟩ := h0
  simp only [construct, a1, a2, a3, a4, a5, a6, a7, h1, h2, if_false, if_true,
    Bool.false_eq_true]
  rw [dictionary_loop_filter, h3]
  simp only [dictionary_loop, h4, h5]
  have hc : tod.toList[key_type.length]? = some ',' := by
    have : key_type.length ∈ (List.range tod.length).filter
        (fun i => decide (tod.toList[i]? = some ',')) := by rw [h3]; simp
    simpa using (List.mem_filter.mp this).2
  rw [if_pos hc]
  cases env.DictionaryInstance key_type value_type msg args <;> rfl

theorem construct_scalar (env : Collaborators I F) (msg : String) (args : List String) :
    ∀ T ∈ Grammar.scalar_types, ∃ x : Except Exc I, construct env T msg args = x.map some := by
  intro T hT
  simp only [Grammar.scalar_types, List.mem_cons, List.mem_singleton, List.not_mem_nil,
    or_false] at hT
  rcases hT with rfl | rfl | rfl | rfl | rfl
  · exact ⟨env.BooleanInstance msg args, rfl⟩
  · exact ⟨env.CharacterInstance msg args, rfl⟩
  · exact ⟨env.IntegerInstance msg args, rfl⟩
  · exact ⟨env.FloatInstance msg args, rfl⟩
  · exact ⟨env.StringInstance msg args, rfl⟩

theorem construct_vector_scalar (env : Collaborators I F) (msg : String)
    (args : List String) :
    ∀ T ∈ Grammar.scalar_types,
      construct env ("Vector<" ++ T ++ ">") msg args
        = (env.VectorInstance T msg args).map some := by
  intro T hT
  simp only [Grammar.scalar_types, List.mem_cons, List.mem_singleton, List.not_mem_nil,
    or_false] at hT
  rcases hT with rfl | rfl | rfl | rfl | rfl <;> rfl

theorem construct_set_scalar (env : Collaborators I F) (msg : String) (args : List String) :
    ∀ T ∈ Grammar.scalar_types,
      construct env ("Set<" ++ T ++ ">") msg args = (env.SetInstance T msg args).map some := by
  intro T hT
  simp only [Grammar.scalar_types, List.mem_cons, List.mem_singleton, List.not_mem_nil,
    or_false] at hT
  rcases hT with rfl | rfl | rfl | rfl | rfl <;> rfl

theorem construct_dictionary_scalar (env : Collaborators I F) (msg : String)
    (args : List String) :
    ∀ K ∈ Grammar.scalar_types, ∀ V ∈ Grammar.scalar_types,
      construct env ("Dictionary<" ++ K ++ "," ++ V ++ ">") msg args
        = (env.DictionaryInstance K V msg args).map some := by
  intro K hK V hV
  simp only [Grammar.scalar_types, List.mem_cons, List.mem_singleton, List.not_mem_nil,
    or_false] at hK hV
  rcases hK with rfl | rfl | rfl | rfl | rfl <;>
    rcases hV with rfl | rfl | rfl | rfl | rfl <;>
    exact construct_dictionary env _ _ _ _ msg args (by decide) (by decide) rfl
      (by decide) rfl rfl

/-- C17: for scalar type names `T`, `K`, `V` and any actor that is `Vector<T>`,
`Set<T>` or `Dictionary<K,V>` once its spaces are removed, lines 79-105 of
`execute_in_type` end with `instance` being the result of one constructor call, to
which the offsets pass exactly `T` as the element type, respectively exactly `K` and `V`
as the key and value types (a throw of that call is the throw of the function); so
`Vector < Integer >` is treated as `Vector<Integer>`. -/
theorem construct_type_parameters (env : Collaborators I F) (msg : String)
    (args : List String) :
    (∀ T ∈ Grammar.scalar_types, ∀ actor, remove_spaces actor = "Vector<" ++ T ++ ">" →
        construct env (remove_spaces actor) msg args
          = (env.VectorInstance T msg args).map some)
      ∧ (∀ T ∈ Grammar.scalar_types, ∀ actor, remove_spaces actor = "Set<" ++ T ++ ">" →
        construct env (remove_spaces actor) msg args = (env.SetInstance T msg args).map some)
      ∧ (∀ K ∈ Grammar.scalar_types, ∀ V ∈ Grammar.scalar_types, ∀ actor,
          remove_spaces actor = "Dictionary<" ++ K ++ "," ++ V ++ ">" →
        construct env (remove_spaces actor) msg args
          = (env.DictionaryInstance K V msg args).map some)
      ∧ remove_spaces "Vector < Integer >" = "Vector<Integer>" := by
  refine ⟨?_, ?_, ?_, by decide⟩
  · intro T hT actor ha
    rw [ha]
    exact construct_vector_scalar env msg args T hT
  · intro T hT actor ha
    rw [ha]
    exact construct_set_scalar env msg args T hT
  · intro K hK V hV actor ha
    rw [ha]
    exact construct_dictionary_scalar env msg args K hK V hV

theorem construct_type_parameters_witness :
    "Integer" ∈ Grammar.scalar_types
      ∧ "String" ∈ Grammar.scalar_types
      ∧ remove_spaces "Dictionary < Integer , String >"
        = "Dictionary<" ++ "Integer" ++ "," ++ "String" ++ ">"
      ∧ construct sample_env (remove_spaces "Dictionary < Integer , String >") "create:" ["d"]
        = (sample_env.DictionaryInstance "Integer" "String" "create:" ["d"]).map some :=
  ⟨by decide, by decide, by decide,
    (construct_type_parameters sample_env "create:" ["d"]).2.2.1 "Integer" (by decide)
      "String" (by decide) "Dictionary < Integer , String >" (by decide)⟩

/-! ## A Dictionary actor without a comma -/

theorem head_of_starts_with (t p : String) (c : Char) (h : starts_with t p = true)
    (hp : p.toList.head? = some c) : t.toList.head? = some c := by
  unfold starts_with at h
  obtain ⟨rest, hr⟩ := List.isPrefixOf_iff_prefix.mp h
  rw [← hr]
  cases hpl : p.toList with
  | nil => rw [hpl] at hp; simp at hp
  | cons a as => rw [hpl] at hp; simpa using hp

theorem construct_dictionary_without_comma (env : Collaborators I F) (t msg : String)
    (args : List String) (hd : starts_with t "Dictionary" = true) (hc : ',' ∉ t.toList) :
    construct env t msg args = if t.length < 11 then .error .other else .ok none := by
  have hh : t.toList.head? = some 'D' := head_of_starts_with t "Dictionary" 'D' hd rfl
  have a1 : ¬ t = "Boolean" := by
    intro h; rw [h] at hh; exact absurd hh (by decide)
  have a2 : ¬ t = "Character" := by
    intro h; rw [h] at hh; exact absurd hh (by decide)
  have a3 : ¬ t = "Integer" := by
    intro h; rw [h] at hh; exact absurd hh (by decide)
  have a4 : ¬ t = "Float" := by
    intro h; rw [h] at hh; exact absurd hh (by decide)
  have a5 : ¬ t = "String" := by
    intro h; rw [h] at hh; exact absurd hh (by decide)
  have a6 : starts_with t "Vector" = false := by
    cases h : starts_with t "Vector" with
    | false => rfl
    | true =>
      have := head_of_starts_with t "Vector" 'V' h rfl
      rw [hh] at this
      exact absurd this (by decide)
  have a7 : starts_with t "Set" = false := by
    cases h : starts_with t "Set" with
    | false => rfl
    | true =>
      have := head_of_starts_with t "Set" 'S' h rfl
      rw [hh] at this
      exact absurd this (by decide)
  simp only [construct, a1, a2, a3, a4, a5, a6, a7, hd, if_false, if_true, Bool.false_eq_true]
  unfold substr
  by_cases hl : t.length < 11
  · simp only [hl, if_true]
  · simp only [hl, if_false]
    rw [dictionary_loop_filter]
    have hnil : ∀ (tod : String) (n : Nat), (∀ c ∈ tod.toList, c ∈ t.toList) →
        (List.range n).filter (fun i => decide (tod.toList[i]? = some ',')) = [] := by
      intro tod n hsub
      apply List.filter_eq_nil_iff.mpr
      intro i _ hi
      have hi' : tod.toList[i]? = some ',' := by simpa using hi
      exact hc (hsub _ (List.getElem?_mem hi'))
    rw [hnil]
    · rfl
    · intro c hcm
      exact List.mem_of_mem_drop (List.mem_of_mem_take hcm)

/-- C16 (the code departs from the claim): when the actor without its spaces starts
with `Dictionary` and contains no comma, `execute_in_type` never throws
`EXC_INVALID_MESSAGE`: with fewer than 11 characters `substr` throws
`std::out_of_range`, and otherwise the loop of lines 100-104 assigns nothing, so that
line 106 calls `name()` through the unset pointer `instance` and the behaviour is
undefined. -/
theorem execute_in_type_dictionary_without_comma (env : Collaborators I F)
    (st : Context I F) (parser : Parser)
    (hd : starts_with (remove_spaces parser.actor) "Dictionary" = true)
    (hc : ',' ∉ (remove_spaces parser.actor).toList) :
    execute_in_type env st parser
        = (if (remove_spaces parser.actor).length < 11 then .thrown .other st else .undefined)
      ∧ execute_in_type env st parser ≠ .thrown (.sentinel EXC_INVALID_MESSAGE) st := by
  have h : execute_in_type env st parser
      = (if (remove_spaces parser.actor).length < 11 then .thrown .other st
          else .undefined) := by
    simp only [execute_in_type, construct_dictionary_without_comma env _ _ _ hd hc]
    by_cases hl : (remove_spaces parser.actor).length < 11
    · simp only [hl, if_true]
    · simp only [hl, if_false]
  refine ⟨h, ?_⟩
  rw [h]
  split <;> intro hx <;> cases hx

theorem execute_in_type_dictionary_without_comma_witness :
    starts_with (remove_spaces "Dictionary<Integer>") "Dictionary" = true
      ∧ ',' ∉ (remove_spaces "Dictionary<Integer>").toList
      ∧ execute_in_type sample_env sample_initial ⟨"Dictionary<Integer>", "create:", ["d"]⟩
        = .undefined
      ∧ execute sample_env sample_initial "Dictionary<Integer> create: d" sample_session
        = some ("", sample_initial) := by
  have h := execute_in_type_dictionary_without_comma sample_env sample_initial
    ⟨"Dictionary<Integer>", "create:", ["d"]⟩ (by decide) (by decide)
  refine ⟨by decide, by decide, ?_, by decide⟩
  rw [h.1]
  decide

/-! ## No failure leaves `execute` -/

theorem is_type_cases (t : String) (h : Grammar.is_type t = true) :
    t ∈ Grammar.scalar_types
      ∨ (∃ a ∈ Grammar.scalar_types, t = "Vector<" ++ a ++ ">" ∨ t = "Set<" ++ a ++ ">")
      ∨ (∃ k ∈ Grammar.scalar_types, ∃ v ∈ Grammar.scalar_types,
          t = "Dictionary<" ++ k ++ "," ++ v ++ ">") := by
  unfold Grammar.is_type at h
  simp only [Bool.or_eq_true, List.any_eq_true, List.contains_iff_exists_mem_beq,
    beq_iff_eq] at h
  rcases h with (h | h) | h
  · left
    obtain ⟨a, ha, rfl⟩ := h
    exact ha
  · right; left; exact h
  · right; right
    obtain ⟨k, hk, v, hv, h⟩ := h
    exact ⟨k, hk, v, hv, h⟩

theorem construct_of_is_type (env : Collaborators I F) (t msg : String) (args : List String)
    (h : Grammar.is_type t = true) :
    ∃ x : Except Exc I, construct env t msg args = x.map some := by
  rcases is_type_cases t h with h | ⟨a, ha, rfl | rfl⟩ | ⟨k, hk, v, hv, rfl⟩
  · exact construct_scalar env msg args t h
  · exact ⟨_, construct_vector_scalar env msg args a ha⟩
  · exact ⟨_, construct_set_scalar env msg args a ha⟩
  · exact ⟨_, construct_dictionary_scalar env msg args k hk v hv⟩

theorem execute_in_type_defined (env : Collaborators I F) (st : Context I F)
    (parser : Parser) (h : Grammar.is_type (remove_spaces parser.actor) = true) :
    execute_in_type env st parser ≠ .undefined := by
  obtain ⟨x, hx⟩ :=
    construct_of_is_type env (remove_spaces parser.actor) parser.message_name
      parser.arguments h
  intro hu
  unfold execute_in_type at hu
  simp only [hx] at hu
  cases x with
  | error e => cases hu
  | ok inst =>
    simp only [Except.map] at hu
    split at hu
    · cases hu
    · split at hu <;> cases hu

theorem execute_in_context_defined (env : Collaborators I F) (st : Context I F)
    (parser : Parser) : execute_in_context env st parser ≠ .undefined := by
  unfold execute_in_context op_listNamespaces op_listVariables op_listVariablesOfNamespace
    op_deleteVariable op_deleteVariablesOfNamespace op_getFloatPrecision op_setFloatPrecision
    op_getFloatComparisonTolerance op_setFloatComparisonTolerance
  intro h
  simp only at h
  repeat' split at h
  all_goals cases h

theorem dispatch_defined (env : Collaborators I F) (st : Context I F) (parser : Parser)
    (session : String → List String → Except Exc String)
    (htype : ∀ s, env.is_type s = true → Grammar.is_type (remove_spaces s) = true)
    (hrecv : ∀ p t i m a, env.receive p t i m a ≠ .undefined) :
    dispatch env st parser session ≠ .undefined := by
  unfold dispatch
  simp only
  split
  · rename_i ht
    exact execute_in_type_defined env st parser (htype _ ht)
  split
  · exact execute_in_context_defined env st parser
  split
  · unfold execute_in_variable
    intro hu
    split at hu
    · cases hu
    · split at hu
      · cases hu
      · cases hu
      · rename_i hr
        exact hrecv _ _ _ _ _ hr
  split
  · intro hu
    split at hu <;> cases hu
  · intro hu
    cases hu

theorem is_type_remove_spaces (s : String) (h : Grammar.is_type s = true) :
    Grammar.is_type (remove_spaces s) = true := by
  have hs : ∀ a ∈ Grammar.scalar_types, Grammar.is_type (remove_spaces a) = true
      ∧ Grammar.is_type (remove_spaces ("Vector<" ++ a ++ ">")) = true
      ∧ Grammar.is_type (remove_spaces ("Set<" ++ a ++ ">")) = true
      ∧ ∀ v ∈ Grammar.scalar_types,
          Grammar.is_type (remove_spaces ("Dictionary<" ++ a ++ "," ++ v ++ ">")) = true := by
    decide
  rcases is_type_cases s h with h | ⟨a, ha, rfl | rfl⟩ | ⟨k, hk, v, hv, rfl⟩
  · exact (hs s h).1
  · exact (hs a ha).2.1
  · exact (hs a ha).2.2.1
  · exact (hs k hk).2.2.2 v hv

theorem sample_receive_defined (p : Int) (t : String) (i : SampleInstance) (m : String)
    (a : List String) : sample_receive p t i m a ≠ .undefined := by
  unfold sample_receive
  intro h
  repeat' split at h
  all_goals cases h

/-- C14: with a grammar whose types are those of §3 and instances whose `receive` has
defined behaviour, `execute` returns a reply for every input and every state: when the
parser throws the string sentinel `K` the reply is `K` and the state is unchanged, when
it throws anything else the reply is `EXC_UNKNOWN_ERROR`; when the selected handler
throws the string sentinel `K` the reply is `K`, when it throws anything else the reply
is `EXC_UNKNOWN_ERROR`, and the state is the one at the throw; and when the handler
returns, the reply and the state are the ones it returns. -/
theorem execute_replies (env : Collaborators I F) (st : Context I F) (input : String)
    (session : String → List String → Except Exc String)
    (htype : ∀ s, env.is_type s = true → Grammar.is_type (remove_spaces s) = true)
    (hrecv : ∀ p t i m a, env.receive p t i m a ≠ .undefined) :
    ∃ reply st', execute env st input session = some (reply, st')
      ∧ (∀ K, env.parse input = .error (.sentinel K) → reply = K ∧ st' = st)
      ∧ (env.parse input = .error .other → reply = EXC_UNKNOWN_ERROR ∧ st' = st)
      ∧ (∀ parser K s, env.parse input = .ok parser →
          dispatch env st parser session = .thrown (.sentinel K) s → reply = K ∧ st' = s)
      ∧ (∀ parser s, env.parse input = .ok parser →
          dispatch env st parser session = .thrown .other s →
          reply = EXC_UNKNOWN_ERROR ∧ st' = s)
      ∧ (∀ parser r s, env.parse input = .ok parser →
          dispatch env st parser session = .returned r s → reply = r ∧ st' = s) := by
  cases hp : env.parse input with
  | error e =>
    cases e with
    | sentinel K =>
      refine ⟨K, st, by simp [execute, hp], ?_, ?_, ?_, ?_, ?_⟩
      · intro K' h; cases h; exact ⟨rfl, rfl⟩
      · intro h; cases h
      · intro parser K' s h; cases h
      · intro parser s h; cases h
      · intro parser r s h; cases h
    | other =>
      refine ⟨EXC_UNKNOWN_ERROR, st, by simp [execute, hp], ?_, ?_, ?_, ?_, ?_⟩
      · intro K' h; cases h
      · intro _; exact ⟨rfl, rfl⟩
      · intro parser K' s h; cases h
      · intro parser s h; cases h
      · intro parser r s h; cases h
  | ok parser =>
    cases hd : dispatch env st parser session with
    | undefined => exact absurd hd (dispatch_defined env st parser session htype hrecv)
    | returned r s =>
      refine ⟨r, s, by simp [execute, hp, hd], ?_, ?_, ?_, ?_, ?_⟩
      · intro K' h; cases h
      · intro h; cases h
      · intro parser' K' s' h h'; cases h; rw [hd] at h'; cases h'
      · intro parser' s' h h'; cases h; rw [hd] at h'; cases h'
      · intro parser' r' s' h h'; cases h; rw [hd] at h'; cases h'; exact ⟨rfl, rfl⟩
    | thrown e s =>
      cases e with
      | sentinel K =>
        refine ⟨K, s, by simp [execute, hp, hd], ?_, ?_, ?_, ?_, ?_⟩
        · intro K' h; cases h
        · intro h; cases h
        · intro parser' K' s' h h'; cases h; rw [hd] at h'; cases h'; exact ⟨rfl, rfl⟩
        · intro parser' s' h h'; cases h; rw [hd] at h'; cases h'
        · intro parser' r' s' h h'; cases h; rw [hd] at h'; cases h'
      | other =>
        refine ⟨EXC_UNKNOWN_ERROR, s, by simp [execute, hp, hd], ?_, ?_, ?_, ?_, ?_⟩
        · intro K' h; cases h
        · intro h; cases h
        · intro parser' K' s' h h'; cases h; rw [hd] at h'; cases h'
        · intro parser' s' h h'; cases h; rw [hd] at h'; cases h'; exact ⟨rfl, rfl⟩
        · intro parser' r' s' h h'; cases h; rw [hd] at h'; cases h'

theorem execute_replies_witness :
    (∀ s, sample_env.is_type s = true → Grammar.is_type (remove_spaces s) = true)
      ∧ (∀ p t i m a, sample_env.receive p t i m a ≠ .undefined)
      ∧ sample_env.parse "Context" = .error (.sentinel "EXC_MALFORMED_INPUT")
      ∧ execute sample_env sample_with_x "Context" sample_session
        = some ("EXC_MALFORMED_INPUT", sample_with_x)
      ∧ sample_env.parse "Vector create: v" = .ok ⟨"Vector", "create:", ["v"]⟩
      ∧ execute_in_type sample_env sample_with_x ⟨"Vector", "create:", ["v"]⟩
        = .thrown .other sample_with_x
      ∧ execute sample_env sample_with_x "x getValue: 1" sample_session
        = some ("EXC_INVALID_MESSAGE", sample_with_x) := by
  have htype : ∀ s, sample_env.is_type s = true → Grammar.is_type (remove_spaces s) = true :=
    fun s h => is_type_remove_spaces s h
  have hrecv : ∀ p t i m a, sample_env.receive p t i m a ≠ .undefined :=
    fun p t i m a => sample_receive_defined p t i m a
  refine ⟨htype, hrecv, rfl, ?_, rfl, by decide, ?_⟩
  · obtain ⟨reply, st', h, hK, -⟩ :=
      execute_replies sample_env sample_with_x "Context" sample_session htype hrecv
    obtain ⟨h1, h2⟩ := hK "EXC_MALFORMED_INPUT" rfl
    rw [h, h1, h2]
  · obtain ⟨reply, st', h, -, -, hK, -⟩ :=
      execute_replies sample_env sample_with_x "x getValue: 1" sample_session htype hrecv
    obtain ⟨h1, h2⟩ := hK ⟨"x", "getValue:", ["1"]⟩ "EXC_INVALID_MESSAGE"
      sample_with_x rfl (by decide)
    rw [h, h1, h2]

/-! ## The names in the registry -/

theorem delete_loop_sublist (k : String) (m m' : List (String × I))
    (h : delete_loop k m = some m') : m'.Sublist m := by
  induction m generalizing m' with
  | nil => simp [delete_loop] at h
  | cons e t ih =>
    obtain ⟨k', v'⟩ := e
    by_cases hk : k' = k
    · simp only [delete_loop, hk, if_true, Option.some.injEq] at h
      subst h
      exact List.sublist_cons_self _ _
    · simp only [delete_loop, hk, if_false, Option.map_eq_some'] at h
      obtain ⟨t', ht', rfl⟩ := h
      exact (ih t' ht').cons₂ _

theorem execute_in_context_sublist (env : Collaborators I F) (st : Context I F)
    (parser : Parser) :
    (execute_in_context env st parser).holds
      (fun s => (Registry.keys s._instances).Sublist (Registry.keys st._instances)) := by
  unfold execute_in_context op_listNamespaces op_listVariables op_listVariablesOfNamespace
    op_deleteVariable op_deleteVariablesOfNamespace op_getFloatPrecision op_setFloatPrecision
    op_getFloatComparisonTolerance op_setFloatComparisonTolerance
  simp only
  repeat' split
  all_goals simp only [Outcome.holds]
  all_goals
    first
    | exact List.Sublist.refl _
    | exact (delete_loop_sublist _ _ _ (by assumption)).map _
    | (rw [foldl_erase_to_be_deleted]; exact (List.filter_sublist _).map _)

theorem execute_in_variable_sublist (env : Collaborators I F) (st : Context I F)
    (parser : Parser) :
    (execute_in_variable env st parser).holds
      (fun s => (Registry.keys s._instances).Sublist (Registry.keys st._instances)) := by
  unfold execute_in_variable
  repeat' split
  all_goals simp only [Outcome.holds]
  all_goals
    first
    | exact List.Sublist.refl _
    | rw [keys_assign]

theorem execute_in_type_step (env : Collaborators I F) (st : Context I F) (parser : Parser) :
    (execute_in_type env st parser).holds (registry_step env parser st) := by
  unfold execute_in_type
  simp only
  split
  · exact Or.inl (List.Sublist.refl _)
  · trivial
  · rename_i inst hc
    split
    · exact Or.inr ⟨inst, hc, rfl⟩
    · split
      · exact Or.inl (List.Sublist.refl _)
      · exact Or.inl (List.Sublist.refl _)

theorem dispatch_step (env : Collaborators I F) (st : Context I F) (parser : Parser)
    (session : String → List String → Except Exc String) :
    (dispatch env st parser session).holds (registry_step env parser st) := by
  unfold dispatch
  simp only
  split
  · exact execute_in_type_step env st parser
  split
  · have h := execute_in_context_sublist env st parser
    revert h
    cases execute_in_context env st parser <;> simp only [Outcome.holds] <;> intro h
    · exact Or.inl h
    · exact Or.inl h
    · trivial
  split
  · have h := execute_in_variable_sublist env st parser
    revert h
    cases execute_in_variable env st parser <;> simp only [Outcome.holds] <;> intro h
    · exact Or.inl h
    · exact Or.inl h
    · trivial
  split
  · split
    · exact Or.inl (List.Sublist.refl _)
    · exact Or.inl (List.Sublist.refl _)
  · exact Or.inl (List.Sublist.refl _)

theorem execute_step (env : Collaborators I F) (st st' : Context I F) (input reply : String)
    (session : String → List String → Except Exc String)
    (h : execute env st input session = some (reply, st')) :
    st' = st ∨ ∃ parser, registry_step env parser st st' := by
  unfold execute at h
  simp only at h
  cases hp : env.parse input with
  | error e =>
    rw [hp] at h
    left
    cases e <;> simp only [Option.some.injEq, Prod.mk.injEq] at h <;> exact h.2.symm
  | ok parser =>
    rw [hp] at h
    right
    refine ⟨parser, ?_⟩
    have hs := dispatch_step env st parser session
    cases hd : dispatch env st parser session with
    | returned r s =>
      rw [hd] at hs
      simp only [hd, Option.some.injEq, Prod.mk.injEq] at h
      rw [← h.2]
      exact hs
    | thrown e s =>
      rw [hd] at hs
      cases e <;> simp only [hd, Option.some.injEq, Prod.mk.injEq] at h <;> rw [← h.2] <;>
        exact hs
    | undefined => simp only [hd] at h; cases h

theorem map_some_eq_ok (x : Except Exc I) (inst : I)
    (h : x.map some = .ok (some inst)) : x = .ok inst := by
  cases x with
  | error e => cases h
  | ok a =>
    simp only [Except.map, Except.ok.injEq, Option.some.injEq] at h
    rw [h]

theorem dictionary_loop_some (env : Collaborators I F) (tod msg : String)
    (args : List String) (is : List Nat) (init : Option I) (inst : I)
    (h : dictionary_loop env tod msg args is init = .ok (some inst)) :
    init = some inst ∨ ∃ k v, env.DictionaryInstance k v msg args = .ok inst := by
  induction is generalizing init with
  | nil =>
    simp only [dictionary_loop, Except.ok.injEq] at h
    exact Or.inl h
  | cons i rest ih =>
    simp only [dictionary_loop] at h
    split at h
    · split at h
      · cases h
      · split at h
        · cases h
        · split at h
          · cases h
          · rename_i d hd
            rcases ih _ h with h' | h'
            · right
              simp only [Option.some.injEq] at h'
              rw [h'] at hd
              exact ⟨_, _, hd⟩
            · exact Or.inr h'
    · exact ih _ h

theorem construct_name (env : Collaborators I F) (hctor : constructors_name_variables env)
    (t msg : String) (args : List String) (inst : I)
    (h : construct env t msg args = .ok (some inst)) :
    env.is_variable (env.name inst) = true := by
  obtain ⟨c1, c2, c3, c4, c5, c6, c7, c8⟩ := hctor
  unfold construct at h
  split at h
  · exact c1 _ _ _ (map_some_eq_ok _ _ h)
  split at h
  · exact c2 _ _ _ (map_some_eq_ok _ _ h)
  split at h
  · exact c3 _ _ _ (map_some_eq_ok _ _ h)
  split at h
  · exact c4 _ _ _ (map_some_eq_ok _ _ h)
  split at h
  · exact c5 _ _ _ (map_some_eq_ok _ _ h)
  split at h
  · split at h
    · cases h
    · exact c6 _ _ _ _ (map_some_eq_ok _ _ h)
  split at h
  · split at h
    · cases h
    · exact c7 _ _ _ _ (map_some_eq_ok _ _ h)
  split at h
  · split at h
    · cases h
    · rcases dictionary_loop_some env _ _ _ _ _ _ h with h' | ⟨k, v, h'⟩
      · cases h'
      · exact c8 _ _ _ _ _ h'
  · cases h

theorem execute_preserves_names (env : Collaborators I F)
    (hctor : constructors_name_variables env) (st st' : Context I F) (input reply : String)
    (session : String → List String → Except Exc String)
    (h : execute env st input session = some (reply, st'))
    (hP : ∀ k ∈ Registry.keys st._instances, env.is_variable k = true) :
    ∀ k ∈ Registry.keys st'._instances, env.is_variable k = true := by
  rcases execute_step env st st' input reply session h with rfl | ⟨parser, hsub | hins⟩
  · exact hP
  · intro k hk
    exact hP k (hsub.subset hk)
  · obtain ⟨inst, hc, hi⟩ := hins
    intro k hk
    rw [hi] at hk
    rcases (Registry.mem_keys_insert k _ _ _).mp hk with rfl | hk
    · exact construct_name env hctor _ _ _ _ hc
    · exact hP k hk

theorem execute_preserves_wf (env : Collaborators I F) (st st' : Context I F)
    (input reply : String) (session : String → List String → Except Exc String)
    (h : execute env st input session = some (reply, st'))
    (hwf : Registry.WF st._instances) : Registry.WF st'._instances := by
  rcases execute_step env st st' input reply session h with rfl | ⟨parser, hsub | hins⟩
  · exact hwf
  · exact List.Pairwise.sublist hsub hwf
  · obtain ⟨inst, -, hi⟩ := hins
    rw [hi]
    exact Registry.wf_insert _ _ _ hwf

/-- The registry of every state reached from the empty registry by calls of `execute`
is in `std::map` order. -/
theorem execute_all_wf (env : Collaborators I F)
    (session : String → List String → Except Exc String) (inputs : List String)
    (st0 st : Context I F) (hwf : Registry.WF st0._instances)
    (h : execute_all env session inputs st0 = some st) : Registry.WF st._instances := by
  induction inputs generalizing st0 with
  | nil =>
    simp only [execute_all, Option.some.injEq] at h
    rw [← h]; exact hwf
  | cons input rest ih =>
    simp only [execute_all] at h
    cases he : execute env st0 input session with
    | none => rw [he] at h; cases h
    | some p =>
      obtain ⟨reply, st1⟩ := p
      rw [he] at h
      exact ih st1 (execute_preserves_wf env st0 st1 input reply session he hwf) h

/-- C15: when the Instance constructors return only instances whose name satisfies
`is_variable` (§4.4), every sequence of `execute` calls keeps the property that all
names bound in the registry satisfy `is_variable`; in particular it holds in every
state reached from the empty registry. -/
theorem registry_names_are_variables (env : Collaborators I F)
    (session : String → List String → Except Exc String)
    (hctor : constructors_name_variables env) :
    (∀ inputs st0 st, (∀ k ∈ Registry.keys st0._instances, env.is_variable k = true) →
        execute_all env session inputs st0 = some st →
        ∀ k ∈ Registry.keys st._instances, env.is_variable k = true)
      ∧ (∀ inputs precision tolerance st,
          execute_all env session inputs ⟨[], precision, tolerance⟩ = some st →
          ∀ k ∈ Registry.keys st._instances, env.is_variable k = true) := by
  have hgen : ∀ inputs st0 st,
      (∀ k ∈ Registry.keys st0._instances, env.is_variable k = true) →
      execute_all env session inputs st0 = some st →
      ∀ k ∈ Registry.keys st._instances, env.is_variable k = true := by
    intro inputs
    induction inputs with
    | nil =>
      intro st0 st hP h
      simp only [execute_all, Option.some.injEq] at h
      rw [← h]; exact hP
    | cons input rest ih =>
      intro st0 st hP h
      simp only [execute_all] at h
      cases he : execute env st0 input session with
      | none => rw [he] at h; cases h
      | some p =>
        obtain ⟨reply, st1⟩ := p
        rw [he] at h
        exact ih st1 st
          (execute_preserves_names env hctor st0 st1 input reply session he hP) h
  refine ⟨hgen, fun inputs precision tolerance st h => ?_⟩
  exact hgen inputs ⟨[], precision, tolerance⟩ st (by intro k hk; cases hk) h

theorem sample_constructor_name (type m : String) (a : List String) (i : SampleInstance)
    (h : sample_constructor type m a = .ok i) : Grammar.is_variable i.name = true := by
  unfold sample_constructor at h
  split at h
  · cases h
  · split at h
    · cases h
    · split at h
      · cases h
      · rename_i hv
        simp only [Except.ok.injEq] at h
        rw [← h]
        simpa using hv

theorem registry_names_are_variables_witness :
    constructors_name_variables sample_env
      ∧ execute_all sample_env sample_session
          ["Integer create: ns::a, withValue: 1", "Set<Integer> create: 9x",
            "Integer create: x, withValue: 0", "Integer create: ns::b, withValue: 2",
            "x setValue: 5", "Context deleteVariable: x", "Integer create: x, withValue: 0"]
          sample_initial
        = some sample_namespaced
      ∧ ∀ k ∈ Registry.keys sample_namespaced._instances, sample_env.is_variable k = true := by
  have hctor : constructors_name_variables sample_env :=
    ⟨fun m a i h => sample_constructor_name _ m a i h,
      fun m a i h => sample_constructor_name _ m a i h,
      fun m a i h => sample_constructor_name _ m a i h,
      fun m a i h => sample_constructor_name _ m a i h,
      fun m a i h => sample_constructor_name _ m a i h,
      fun t m a i h => sample_constructor_name _ m a i h,
      fun t m a i h => sample_constructor_name _ m a i h,
      fun k v m a i h => sample_constructor_name _ m a i h⟩
  have hrun : execute_all sample_env sample_session
      ["Integer create: ns::a, withValue: 1", "Set<Integer> create: 9x",
        "Integer create: x, withValue: 0", "Integer create: ns::b, withValue: 2",
        "x setValue: 5", "Context deleteVariable: x", "Integer create: x, withValue: 0"]
      sample_initial
      = some sample_namespaced := by decide
  exact ⟨hctor, hrun,
    (registry_names_are_variables sample_env sample_session hctor).2 _ 6 "0.000001" _ hrun⟩

/-! ## Namespaces that are listed and namespaces that have variables -/

theorem starts_with_iff (s p : String) :
    starts_with s p = true ↔ ∃ rest : String, s = p ++ rest := by
  unfold starts_with
  rw [List.isPrefixOf_iff_prefix]
  constructor
  · rintro ⟨r, hr⟩
    refine ⟨⟨r⟩, String.ext ?_⟩
    rw [String.data_append]
    exact hr.symm
  · rintro ⟨rest, rfl⟩
    exact ⟨rest.toList, (String.data_append p rest).symm⟩

theorem mem_listed_namespaces (p : String) (m : List (String × I)) :
    p ∈ listed_namespaces m ↔ ∃ name ∈ Registry.keys m, starts_with name (p ++ "::") = true := by
  unfold listed_namespaces
  rw [mem_foldl_namespaces]
  simp only [List.not_mem_nil, false_or, starts_with_iff]

theorem listed_variables_ne_nil_iff (ns : String) (m : List (String × I)) :
    listed_variables ns m ≠ [] ↔
      ∃ name ∈ Registry.keys m, starts_with name (ns ++ "::") = true := by
  unfold listed_variables
  rw [Ne, List.filter_eq_nil_iff]
  simp

theorem intercalate_go_length (sep : String) (xs : List String) (acc : String) :
    acc.length ≤ (String.intercalate.go acc sep xs).length := by
  induction xs generalizing acc with
  | nil => exact Nat.le_refl _
  | cons x xs ih =>
    simp only [String.intercalate.go]
    refine Nat.le_trans ?_ (ih _)
    simp only [String.length_append]
    omega

theorem reply_eq_empty_iff (xs : List String) (hne : ∀ x ∈ xs, 0 < x.length) :
    "[" ++ String.intercalate "," xs ++ "]" = "[]" ↔ xs = [] := by
  constructor
  · intro h
    cases xs with
    | nil => rfl
    | cons x xs =>
      exfalso
      have hl := congrArg String.length h
      simp only [String.length_append, String.intercalate] at hl
      have h1 := intercalate_go_length "," xs x
      have h2 := hne x (by simp)
      have h3 : ("[" : String).length = 1 := by decide
      have h4 : ("]" : String).length = 1 := by decide
      have h5 : ("[]" : String).length = 2 := by decide
      omega
  · intro h
    subst h
    decide

theorem op_listVariablesOfNamespace_eq (env : Collaborators I F) (st : Context I F)
    (ns : String) (hns : env.is_namespace ns = true) :
    op_listVariablesOfNamespace env st [ns]
      = .returned
          ("[" ++ String.intercalate "," (listed_variables ns st._instances) ++ "]") st := by
  have hp : 0 < (ns ++ "::").length := by
    simp only [String.length_append]
    exact Nat.lt_of_lt_of_le (by decide : 0 < ("::" : String).length) (Nat.le_add_left _ _)
  simp [op_listVariablesOfNamespace, hns, namespace_loop_empty _ hp, listed_variables]

theorem listed_variables_length (ns : String) (m : List (String × I)) :
    ∀ x ∈ listed_variables ns m, 0 < x.length := by
  intro x hx
  unfold listed_variables at hx
  have h := starts_with_length x (ns ++ "::") (List.mem_filter.mp hx).2
  simp only [String.length_append] at h
  have h2 : ("::" : String).length = 2 := by decide
  omega

/-- C19: for a valid namespace `ns` and any registry, `ns` is in the set that
`listNamespaces` joins into its reply exactly when the list that
`listVariablesOfNamespace: ns` joins into its reply is not empty, that is exactly when
that reply is not `[]`; and in the state left by `deleteVariablesOfNamespace: ns` the
operation `listVariablesOfNamespace: ns` replies `[]` and `ns` is not in the set that
`listNamespaces` joins into its reply. -/
theorem namespace_listed_iff_has_variables (env : Collaborators I F) (st : Context I F)
    (ns : String) (hns : env.is_namespace ns = true) :
    op_listNamespaces st []
        = .returned
            ("[" ++ String.intercalate "," (listed_namespaces st._instances) ++ "]") st
      ∧ op_listVariablesOfNamespace env st [ns]
        = .returned
            ("[" ++ String.intercalate "," (listed_variables ns st._instances) ++ "]") st
      ∧ (ns ∈ listed_namespaces st._instances ↔ listed_variables ns st._instances ≠ [])
      ∧ (ns ∈ listed_namespaces st._instances ↔
          op_listVariablesOfNamespace env st [ns] ≠ .returned "[]" st)
      ∧ ∃ st', op_deleteVariablesOfNamespace env st [ns] = .returned "null" st'
          ∧ op_listVariablesOfNamespace env st' [ns] = .returned "[]" st'
          ∧ ns ∉ listed_namespaces st'._instances
          ∧ op_listNamespaces st' []
            = .returned
                ("[" ++ String.intercalate "," (listed_namespaces st'._instances) ++ "]") st' := by
  have hln : ∀ s : Context I F, op_listNamespaces s []
      = .returned ("[" ++ String.intercalate "," (listed_namespaces s._instances) ++ "]") s := by
    intro s
    simp [op_listNamespaces, join_loop_true, listed_namespaces]
  have hiff : ∀ m : List (String × I), ns ∈ listed_namespaces m ↔ listed_variables ns m ≠ [] := by
    intro m
    rw [mem_listed_namespaces, listed_variables_ne_nil_iff]
  refine ⟨hln st, op_listVariablesOfNamespace_eq env st ns hns, hiff _, ?_, ?_⟩
  · rw [hiff, op_listVariablesOfNamespace_eq env st ns hns]
    constructor
    · intro hne heq
      simp only [Outcome.returned.injEq, and_true] at heq
      exact hne ((reply_eq_empty_iff _ (listed_variables_length ns _)).mp heq)
    · intro hne heq
      apply hne
      rw [heq]
      rfl
  · have hf := foldl_erase_to_be_deleted (ns ++ "::") st._instances
    have hempty : listed_variables ns
        (st._instances.filter (fun e => !starts_with e.1 (ns ++ "::"))) = [] := by
      unfold listed_variables Registry.keys
      apply List.filter_eq_nil_iff.mpr
      intro k hk hs
      obtain ⟨e, he, rfl⟩ := List.mem_map.mp hk
      have := (List.mem_filter.mp he).2
      simp [hs] at this
    refine ⟨{ st with _instances :=
        st._instances.filter (fun e => !starts_with e.1 (ns ++ "::")) }, ?_, ?_, ?_, hln _⟩
    · simp [op_deleteVariablesOfNamespace, hns, hf]
    · rw [op_listVariablesOfNamespace_eq env _ ns hns]
      simp only [hempty]
      rfl
    · rw [hiff]
      simp only [hempty, ne_eq, not_true_eq_false, not_false_eq_true]

theorem namespace_listed_iff_has_variables_witness :
    sample_env.is_namespace "ns" = true
      ∧ op_listNamespaces sample_namespaced [] = .returned "[ns]" sample_namespaced
      ∧ op_listVariablesOfNamespace sample_env sample_namespaced ["ns"]
        = .returned "[ns::a,ns::b]" sample_namespaced
      ∧ ("ns" ∈ listed_namespaces sample_namespaced._instances ↔
          op_listVariablesOfNamespace sample_env sample_namespaced ["ns"]
            ≠ .returned "[]" sample_namespaced)
      ∧ op_listVariablesOfNamespace sample_env sample_with_x ["ns"]
        = .returned "[]" sample_with_x
      ∧ "ns" ∉ listed_namespaces sample_with_x._instances :=
  ⟨by decide, by decide, by decide,
    (namespace_listed_iff_has_variables sample_env sample_namespaced "ns" (by decide)).2.2.2.1,
    by decide, by decide⟩

end Knuckleball
